import Mathlib

/-!
# Verification of the MidcapNifty options backtester

Shallow embedding of the two strategy variants:

* `backtest_buying_momentum.py` — class `MidcapOptionsStrategy` (long options,
  EMA crossover entries, stepped trailing stop, expiry force-exit);
* `backtest_crossselling.py` — class `OptionSellingStrategy` (short options,
  contract-EMA entries, rollover veto/exit, reversal stop, fixed target).

Conventions of the embedding:

* Prices and profit/loss are rationals (`ℚ`); the Python floats carry no
  claim-relevant rounding behaviour other than the explicit `round(x, 2)`
  calls, which are modelled by `round2`.
* A calendar date is an epoch-day integer (`Int`); equality of the
  day/month/year triple is equality of dates, and `datetime.date`
  subtraction `.days` is integer subtraction.
* A wall-clock time of day is minutes after midnight (`Nat`); an absolute
  bar timestamp used by `asof` queries is seconds (`Nat`).
* The option-file environment is a partial map from scrip code to the raw
  series; `none` models a missing/unreadable CSV (the `except` paths).
* File output (per-trade CSV, summary CSV) is external persistence and is
  not part of the state; the in-memory `summary_log` and
  `current_trade_ledger` lists are modelled exactly.  Python `list.append`
  appends at the tail, modelled by `++ [r]`.
-/

namespace Backtest

/-- `round(x, 2)` at the recording/reporting boundary: round to 2 decimal
places (tie behaviour is irrelevant to every claim proved below). -/
def round2 (q : ℚ) : ℚ := (round (q * 100) : ℤ) / 100

/-- An underlying ("spot") bar as delivered by the replay loop, carrying the
expiry-date columns, the two leg scrip codes and the backtrader spot EMAs
(`ema5`, `ema20_high`, `ema20_low`) at offsets 0 and -1 that the buying
variant's `next` reads. -/
structure SpotBar where
  date : Int
  timeMin : Nat
  ts : Nat
  expiry : Int
  scripCE : String
  scripPE : String
  ema5Prev : ℚ
  ema5 : ℚ
  ema20HighPrev : ℚ
  ema20High : ℚ
  ema20LowPrev : ℚ
  ema20Low : ℚ
  deriving Repr, DecidableEq

/-- `pandas.Index.asof` over a timestamp-indexed series: the latest (last in
list order) sample whose timestamp is ≤ the query, `none` when no sample
qualifies.  On a sorted index this is the floor lookup. -/
def asof {α : Type} (l : List (Nat × α)) (q : Nat) : Option (Nat × α) :=
  match l with
  | [] => Option.none
  | x :: xs =>
      match asof xs q with
      | some tv => some tv
      | Option.none => if x.1 ≤ q then some x else Option.none

/-- `df.index.is_monotonic_increasing`: the timestamps are non-decreasing
in list order. -/
def isMonotonicTs {α : Type} : List (Nat × α) → Bool
  | [] => true
  | [_] => true
  | x :: y :: rest =>
      if x.1 ≤ y.1 then isMonotonicTs (y :: rest) else false

/-- `df.sort_index()` guarded by `is_monotonic_increasing`: sort the series
by timestamp when it is not already non-decreasing. -/
def sortByTs {α : Type} (l : List (Nat × α)) : List (Nat × α) :=
  if isMonotonicTs l then l
  else l.mergeSort (fun a b => a.1 ≤ b.1)

/-! ## Buying variant (`backtest_buying_momentum.py`, `MidcapOptionsStrategy`) -/

/-- Constants from the configuration block of `backtest_buying_momentum.py`. -/
def LOT_SIZE : ℚ := 120
def MAX_TRADES_DAY : Nat := 2
def TSL_TRIGGER : ℚ := 3000
def TSL_STEP : ℚ := 500
def TSL_INCREMENT : ℚ := 500

/-- `self.sl_mode`: `'NONE' | 'COST' | 'TRAILING'`. -/
inductive SLMode | none | cost | trailing
  deriving Repr, DecidableEq

/-- `self.pos_type`: `'CE' | 'PE'`. -/
inductive PosType | ce | pe
  deriving Repr, DecidableEq

/-- One row appended by `log_trade_step` (buying variant). -/
structure BuyStepRecord where
  date : Int
  timeMin : Nat
  event : String
  ticker : String
  price : ℚ
  pnl : ℚ
  slPrice : ℚ
  slMode : SLMode
  info : String
  deriving Repr, DecidableEq

/-- One row appended to `self.summary_log` by `close_trade` (buying). -/
structure BuySummary where
  tradeId : Nat
  scripName : String
  buyTime : Option (Int × Nat)
  sellTime : Int × Nat
  buyPrice : ℚ
  sellPrice : ℚ
  pnl : ℚ
  exitReason : String
  deriving Repr, DecidableEq

/-- The mutable fields of `MidcapOptionsStrategy` (set up in `__init__`). -/
structure BuyState where
  currentDate : Option Int
  tradesToday : Nat
  totalTradesCount : Nat
  positionActive : Bool
  posType : Option PosType
  entryPrice : ℚ
  entryTime : Option (Int × Nat)
  activeScrip : String
  slMode : SLMode
  currentSlPrice : ℚ
  maxPnlReached : ℚ
  activeOptionDf : Option (List (Nat × ℚ))
  summaryLog : List BuySummary
  currentTradeLedger : List BuyStepRecord
  deriving Repr, DecidableEq

/-- The option-file collaborator: scrip code ↦ raw `(timestamp, close)`
series, `none` when the CSV is absent or unreadable. -/
def BuyEnv : Type := String → Option (List (Nat × ℚ))

/-- `get_option_price(scrip_code, check_datetime)`: load (and cache) the
scrip's series when the cache misses, then `asof`-look up the close at the
query timestamp.  A failed load leaves the cache untouched and yields
`none`; a successful load stores the sorted series and sets
`active_scrip`. -/
def getOptionPrice (env : BuyEnv) (s : BuyState) (scrip : String) (ts : Nat) :
    Option ℚ × BuyState :=
  let loaded : Option BuyState :=
    if s.activeOptionDf = Option.none ∨ s.activeScrip ≠ scrip then
      match env scrip with
      | Option.none => Option.none
      | some raw =>
          some { s with activeOptionDf := some (sortByTs raw), activeScrip := scrip }
    else some s
  match loaded with
  | Option.none => (Option.none, s)
  | some s1 =>
    match asof (s1.activeOptionDf.getD []) ts with
    | Option.none => (Option.none, s1)
    | some tv => (some tv.2, s1)

/-- `log_trade_step(dt, event, price, pnl_val, sl_price, info)`: append one
rounded row to the current trade's ledger.  The `SL_Price` column is
`round(sl_price, 2) if sl_price > 0 else 0`. -/
def logTradeStep (s : BuyState) (bar : SpotBar) (event : String)
    (price pnl slPrice : ℚ) (info : String) : BuyState :=
  { s with currentTradeLedger := s.currentTradeLedger ++
      [{ date := bar.date, timeMin := bar.timeMin, event := event,
         ticker := s.activeScrip, price := round2 price, pnl := round2 pnl,
         slPrice := if slPrice > 0 then round2 slPrice else 0,
         slMode := s.slMode, info := info }] }

/-- `close_trade(reason, dt, price)`: realize `(price − entry) × qty`, append
the `EXIT` ledger row and the summary row (rounded at this boundary), and
clear the position flags.  The CSV dump of the ledger is external
persistence. -/
def closeTrade (s : BuyState) (reason : String) (bar : SpotBar) (price : ℚ) :
    BuyState :=
  let pnl := (price - s.entryPrice) * LOT_SIZE
  let s := logTradeStep s bar "EXIT" price pnl s.currentSlPrice reason
  let summ : BuySummary :=
    { tradeId := s.totalTradesCount, scripName := s.activeScrip,
      buyTime := s.entryTime, sellTime := (bar.date, bar.timeMin),
      buyPrice := round2 s.entryPrice, sellPrice := round2 price,
      pnl := round2 pnl, exitReason := reason }
  { s with summaryLog := s.summaryLog ++ [summ],
           positionActive := false, posType := Option.none, activeScrip := "" }

/-- `entry_setup(type_, dt)`: resolve the leg's scrip price; the guard is the
Python truthiness test `if price:`, so both an unresolved price and an exact
`0.0` price abort the entry.  On success: bump the counters, arm the
position, reset the TSL state, start a fresh ledger and log the `ENTRY`
row. -/
def entrySetup (env : BuyEnv) (s : BuyState) (t : PosType) (bar : SpotBar) :
    BuyState :=
  let scrip := match t with | PosType.ce => bar.scripCE | PosType.pe => bar.scripPE
  match getOptionPrice env s scrip bar.ts with
  | (Option.none, s1) => s1
  | (some p, s1) =>
    if p ≠ 0 then
      let s2 : BuyState :=
        { s1 with totalTradesCount := s1.totalTradesCount + 1,
                  positionActive := true, posType := some t,
                  entryPrice := p, activeScrip := scrip,
                  entryTime := some (bar.date, bar.timeMin),
                  tradesToday := s1.tradesToday + 1,
                  slMode := SLMode.none, currentSlPrice := 0, maxPnlReached := 0,
                  currentTradeLedger := [] }
      logTradeStep s2 bar "ENTRY" p 0 0 "Signal"
    else s1

/-- New-day reset at the top of `next`: on a date change, zero the daily
trade counter and drop the cached option dataframe. -/
def newDayReset (s : BuyState) (bar : SpotBar) : BuyState :=
  if s.currentDate ≠ some bar.date then
    { s with currentDate := some bar.date, tradesToday := 0,
             activeOptionDf := Option.none }
  else s

/-- The TSL block of `next` (trigger move-to-cost, then the stepped ratchet):
lines 180–198 of `backtest_buying_momentum.py`. -/
def tslUpdate (s : BuyState) (bar : SpotBar) (price pnl : ℚ) : BuyState :=
  let s :=
    if s.slMode = SLMode.none ∧ pnl ≥ TSL_TRIGGER then
      let s1 := { s with slMode := SLMode.cost, currentSlPrice := s.entryPrice,
                         maxPnlReached := pnl }
      logTradeStep s1 bar "TSL_UPDATE" price pnl s1.currentSlPrice "Moved to Cost"
    else s
  if s.slMode = SLMode.cost ∨ s.slMode = SLMode.trailing then
    let s := if pnl > s.maxPnlReached then { s with maxPnlReached := pnl } else s
    let excess := s.maxPnlReached - TSL_TRIGGER
    if excess ≥ TSL_STEP then
      let steps : ℤ := ⌊excess / TSL_STEP⌋
      let newSl := s.entryPrice + (steps * TSL_INCREMENT : ℚ) / LOT_SIZE
      if newSl > s.currentSlPrice then
        let s1 := { s with currentSlPrice := newSl, slMode := SLMode.trailing }
        logTradeStep s1 bar "TSL_UPDATE" price pnl s1.currentSlPrice "Stepped Up"
      else s
    else s
  else s

/-- The held-bar body of `next` once the current option price `p` has
resolved: signed profit/loss, the `HOLD` ledger row, the TSL block, then the
exit if-chain in source order (TSL hit at the stop price, then the EMA
reversals at the market price). -/
def buyHold (s1 : BuyState) (bar : SpotBar) (p : ℚ) : BuyState :=
  let pnl := (p - s1.entryPrice) * LOT_SIZE
  let s2 := logTradeStep s1 bar "HOLD" p pnl s1.currentSlPrice "Monitoring"
  let s3 := tslUpdate s2 bar p pnl
  if s3.slMode ≠ SLMode.none ∧ p ≤ s3.currentSlPrice then
    closeTrade s3 "TSL_HIT" bar s3.currentSlPrice
  else if s3.posType = some PosType.ce ∧ bar.ema5 < bar.ema20Low then
    closeTrade s3 "EMA_REVERSAL" bar p
  else if s3.posType = some PosType.pe ∧ bar.ema5 > bar.ema20High then
    closeTrade s3 "EMA_REVERSAL" bar p
  else s3

/-- The `ACTIVE POSITION LOGIC` section of `next`: the forced expiry exit
(checked first, with the entry price substituted when the price is
unresolved), then price resolution with the skip-on-unavailable policy, then
`buyHold`. -/
def buyActiveBar (env : BuyEnv) (s : BuyState) (bar : SpotBar) : BuyState :=
  if bar.date = bar.expiry ∧ 915 ≤ bar.timeMin then
    match getOptionPrice env s s.activeScrip bar.ts with
    | (Option.none, s1) => closeTrade s1 "EXPIRY_FORCE" bar s1.entryPrice
    | (some p, s1) => closeTrade s1 "EXPIRY_FORCE" bar p
  else
    match getOptionPrice env s s.activeScrip bar.ts with
    | (Option.none, s1) => s1
    | (some p, s1) => buyHold s1 bar p

/-- The `ENTRY LOGIC` section of `next`: the 09:20–11:00 window, the daily
cap, then the CE-before-PE crossover signals. -/
def buyEntryBar (env : BuyEnv) (s : BuyState) (bar : SpotBar) : BuyState :=
  if ¬(560 ≤ bar.timeMin ∧ bar.timeMin ≤ 660) then s
  else if MAX_TRADES_DAY ≤ s.tradesToday then s
  else
    let signalCE := bar.ema5Prev ≤ bar.ema20HighPrev ∧ bar.ema20High < bar.ema5
    let signalPE := bar.ema20LowPrev ≤ bar.ema5Prev ∧ bar.ema5 < bar.ema20Low
    if signalCE then entrySetup env s PosType.ce bar
    else if signalPE then entrySetup env s PosType.pe bar
    else s

/-- `next(self)` of `MidcapOptionsStrategy`: new-day reset, then the
active-position branch or the entry branch. -/
def buyNext (env : BuyEnv) (s0 : BuyState) (bar : SpotBar) : BuyState :=
  let s := newDayReset s0 bar
  if s.positionActive then buyActiveBar env s bar
  else buyEntryBar env s bar

/-! ## Selling variant (`backtest_crossselling.py`, `OptionSellingStrategy`) -/

/-- Constants from the configuration block of `backtest_crossselling.py`. -/
def EMA_FAST : Nat := 19
def EMA_SLOW : Nat := 50
def TARGET_LTP : ℚ := 30
def ROLLOVER_DAYS : Int := 4

/-- Tail of `Series.ewm(span, adjust=False).mean()`: carry the previous
smoothed value through `y = α·x + (1−α)·prev`. -/
def ewmFrom (alpha : ℚ) (prev : ℚ) : List ℚ → List ℚ
  | [] => []
  | x :: xs =>
      let y := alpha * x + (1 - alpha) * prev
      y :: ewmFrom alpha y xs

/-- `Series.ewm(alpha, adjust=False).mean()`: `y[0] = x[0]`,
`y[i] = α·x[i] + (1−α)·y[i−1]`. -/
def ewm (alpha : ℚ) : List ℚ → List ℚ
  | [] => []
  | x :: xs => x :: ewmFrom alpha x xs

/-- `Series.ewm(span=span, adjust=False).mean()` with `α = 2/(span+1)`. -/
def ewmSpan (span : Nat) (l : List ℚ) : List ℚ :=
  ewm (2 / (span + 1 : ℚ)) l

/-- One OHLC sample of a raw option series (the columns `get_option_indicators`
reads). -/
structure OHLC where
  close : ℚ
  high : ℚ
  low : ℚ
  deriving Repr, DecidableEq

/-- One row of a loaded option dataframe after the indicator columns
`EMA19_Close`, `EMA50_High`, `EMA50_Low` have been added. -/
structure IndRow where
  close : ℚ
  high : ℚ
  low : ℚ
  ema19Close : ℚ
  ema50High : ℚ
  ema50Low : ℚ
  deriving Repr, DecidableEq

/-- Add the three EMA columns to a (sorted) option series:
`df['EMA19_Close'] = df['close'].ewm(span=19, adjust=False).mean()` etc. -/
def computeIndicators (l : List (Nat × OHLC)) : List (Nat × IndRow) :=
  let e19 := ewmSpan EMA_FAST (l.map (fun x => x.2.close))
  let e50h := ewmSpan EMA_SLOW (l.map (fun x => x.2.high))
  let e50l := ewmSpan EMA_SLOW (l.map (fun x => x.2.low))
  (l.zip (e19.zip (e50h.zip e50l))).map
    (fun x =>
      (x.1.1, { close := x.1.2.close, high := x.1.2.high, low := x.1.2.low,
                ema19Close := x.2.1, ema50High := x.2.2.1,
                ema50Low := x.2.2.2 }))

/-- One row appended by the selling variant's `log_trade_step` (no SL
columns). -/
structure SellStepRecord where
  date : Int
  timeMin : Nat
  event : String
  ticker : String
  price : ℚ
  pnl : ℚ
  info : String
  deriving Repr, DecidableEq

/-- One row appended to `self.summary_log` by the selling `close_trade`. -/
structure SellSummary where
  tradeId : Nat
  scripName : String
  posType : Option PosType
  sellTime : Option (Int × Nat)
  buyTime : Int × Nat
  sellPrice : ℚ
  buyPrice : ℚ
  pnl : ℚ
  exitReason : String
  deriving Repr, DecidableEq

/-- The mutable fields of `OptionSellingStrategy` (set up in `__init__`).
There is no daily-trade counter and no stored current date. -/
structure SellState where
  totalTradesCount : Nat
  positionActive : Bool
  posType : Option PosType
  entryPrice : ℚ
  activeScrip : String
  entryTime : Option (Int × Nat)
  activeOptionDf : Option (List (Nat × IndRow))
  summaryLog : List SellSummary
  currentTradeLedger : List SellStepRecord
  deriving Repr, DecidableEq

/-- The option-file collaborator for the selling variant. -/
def SellEnv : Type := String → Option (List (Nat × OHLC))

/-- `get_option_indicators(scrip_code, local_dt)`: use the cached dataframe
when a position is active on the same scrip, else load, sort and compute the
EMA columns (caching the result only when holding that scrip); then
`asof`-look up the row at the query time and reject it when it is stale by
more than 900 seconds. -/
def getOptionIndicators (env : SellEnv) (s : SellState) (scrip : String)
    (ts : Nat) : Option IndRow × SellState :=
  let loaded : Option (List (Nat × IndRow) × SellState) :=
    if s.positionActive ∧ scrip = s.activeScrip ∧ s.activeOptionDf ≠ Option.none then
      some (s.activeOptionDf.getD [], s)
    else
      match env scrip with
      | Option.none => Option.none
      | some raw =>
          let df := computeIndicators (sortByTs raw)
          let s1 := if s.positionActive ∧ scrip = s.activeScrip then
              { s with activeOptionDf := some df } else s
          some (df, s1)
  match loaded with
  | Option.none => (Option.none, s)
  | some (df, s1) =>
    match asof df ts with
    | Option.none => (Option.none, s1)
    | some tr => if 900 < (ts : ℤ) - tr.1 then (Option.none, s1)
                 else (some tr.2, s1)

/-- The selling variant's `log_trade_step`. -/
def sellLogStep (s : SellState) (bar : SpotBar) (event : String)
    (price pnl : ℚ) (info : String) : SellState :=
  { s with currentTradeLedger := s.currentTradeLedger ++
      [{ date := bar.date, timeMin := bar.timeMin, event := event,
         ticker := s.activeScrip, price := round2 price, pnl := round2 pnl,
         info := info }] }

/-- `open_trade(type_, scrip, price, dt)`: arm the short position, clear the
cached dataframe, start a fresh ledger and log the `SELL_ENTRY` row. -/
def openTrade (s : SellState) (t : PosType) (scrip : String) (price : ℚ)
    (bar : SpotBar) : SellState :=
  let s1 : SellState :=
    { s with totalTradesCount := s.totalTradesCount + 1,
             positionActive := true, posType := some t,
             entryPrice := price, activeScrip := scrip,
             entryTime := some (bar.date, bar.timeMin),
             activeOptionDf := Option.none,
             currentTradeLedger := [] }
  sellLogStep s1 bar "SELL_ENTRY" price 0 "Signal Short"

/-- The selling `close_trade(reason, dt, price)`: realize
`(entry − price) × qty` (short), append the `BUY_EXIT` row and the rounded
summary row, clear the position flags and drop the cached dataframe. -/
def sellCloseTrade (s : SellState) (reason : String) (bar : SpotBar)
    (price : ℚ) : SellState :=
  let pnl := (s.entryPrice - price) * LOT_SIZE
  let s := sellLogStep s bar "BUY_EXIT" price pnl reason
  let summ : SellSummary :=
    { tradeId := s.totalTradesCount, scripName := s.activeScrip,
      posType := s.posType, sellTime := s.entryTime,
      buyTime := (bar.date, bar.timeMin),
      sellPrice := round2 s.entryPrice, buyPrice := round2 price,
      pnl := round2 pnl, exitReason := reason }
  { s with summaryLog := s.summaryLog ++ [summ],
           positionActive := false, posType := Option.none,
           activeScrip := "", activeOptionDf := Option.none }

/-- The CE ("sell call") half of the selling entry logic, reached when the PE
check did not open a trade. -/
def sellCheckCE (env : SellEnv) (s : SellState) (bar : SpotBar) : SellState :=
  match getOptionIndicators env s bar.scripCE bar.ts with
  | (Option.none, s1) => s1
  | (some rowCE, s1) =>
      if rowCE.ema19Close < rowCE.ema50Low then
        openTrade s1 PosType.ce bar.scripCE rowCE.close bar
      else s1

/-- The `MANAGE ACTIVE POSITION` section of the selling `next`: resolve the
active contract's row (skip the bar when unavailable), append the `HOLD`
row, then the exit if-chain in source order — rollover forced exit first,
then the EMA reversal stop, then the fixed target. -/
def sellHoldBar (env : SellEnv) (s : SellState) (bar : SpotBar)
    (isRollover : Bool) : SellState :=
  match getOptionIndicators env s s.activeScrip bar.ts with
  | (Option.none, s1) => s1
  | (some row, s1) =>
    let currPrice := row.close
    let pnl := (s1.entryPrice - currPrice) * LOT_SIZE
    let s2 := sellLogStep s1 bar "HOLD" currPrice pnl "Monitoring"
    if isRollover then sellCloseTrade s2 "ROLLOVER_EXIT" bar currPrice
    else if row.ema50High < row.ema19Close then
      sellCloseTrade s2 "EMA_REVERSAL_SL" bar currPrice
    else if currPrice < TARGET_LTP then
      sellCloseTrade s2 "TARGET_LTP_30" bar currPrice
    else s2

/-- The `ENTRY LOGIC` section of the selling `next`: the rollover veto is
checked before the 14:00–15:30 window and before any signal evaluation;
then PE before CE with the condition `EMA19_Close < EMA50_Low`. -/
def sellEntryBar (env : SellEnv) (s : SellState) (bar : SpotBar)
    (isRollover : Bool) : SellState :=
  if isRollover then s
  else if ¬(840 ≤ bar.timeMin ∧ bar.timeMin ≤ 930) then s
  else
    match getOptionIndicators env s bar.scripPE bar.ts with
    | (Option.none, s1) => sellCheckCE env s1 bar
    | (some rowPE, s1) =>
        if rowPE.ema19Close < rowPE.ema50Low then
          openTrade s1 PosType.pe bar.scripPE rowPE.close bar
        else sellCheckCE env s1 bar

/-- `next(self)` of `OptionSellingStrategy`: compute days-to-expiry and the
rollover flag, then either the active-position branch or the entry
branch. -/
def sellNext (env : SellEnv) (s : SellState) (bar : SpotBar) : SellState :=
  let daysToExpiry : Int := bar.expiry - bar.date
  let isRollover : Bool := decide (daysToExpiry ≤ ROLLOVER_DAYS)
  if s.positionActive then sellHoldBar env s bar isRollover
  else sellEntryBar env s bar isRollover

/-! ## Helper lemmas -/

/-- `asof` misses exactly when every sample is strictly later than the
query. -/
theorem asof_eq_none_iff {α : Type} (l : List (Nat × α)) (q : Nat) :
    asof l q = Option.none ↔ ∀ p ∈ l, q < p.1 := by
  induction l with
  | nil => simp [asof]
  | cons x xs ih =>
      show (match asof xs q with
            | some tv => some tv
            | Option.none => if x.1 ≤ q then some x else Option.none) =
          Option.none ↔ _
      cases h : asof xs q with
      | none =>
          by_cases hq : x.1 ≤ q
          · rw [if_pos hq]
            constructor
            · intro hc; exact Option.noConfusion hc
            · intro hall
              exact absurd (hall x (List.mem_cons_self x xs)) (Nat.not_lt.mpr hq)
          · rw [if_neg hq]
            constructor
            · intro _ p hp
              rcases List.mem_cons.mp hp with rfl | hm
              · exact Nat.lt_of_not_le hq
              · exact ih.mp h p hm
            · intro _; rfl
      | some tv =>
          constructor
          · intro hc; exact Option.noConfusion hc
          · intro hall
            have hn : asof xs q = Option.none :=
              ih.mpr (fun p hp => hall p (List.mem_cons_of_mem _ hp))
            rw [hn] at h; exact Option.noConfusion h

/-- A hit of `asof` is a member of the series, not later than the query. -/
theorem asof_mem_le {α : Type} (l : List (Nat × α)) (q : Nat)
    (tv : Nat × α) (h : asof l q = some tv) : tv ∈ l ∧ tv.1 ≤ q := by
  induction l with
  | nil => exact Option.noConfusion h
  | cons x xs ih =>
      rw [show asof (x :: xs) q =
            (match asof xs q with
             | some tv => some tv
             | Option.none => if x.1 ≤ q then some x else Option.none) from rfl] at h
      cases hx : asof xs q with
      | none =>
          rw [hx] at h
          by_cases hq : x.1 ≤ q
          · rw [if_pos hq] at h
            cases h
            exact ⟨List.mem_cons_self _ _, hq⟩
          · rw [if_neg hq] at h
            exact Option.noConfusion h
      | some tv2 =>
          rw [hx] at h
          cases h
          obtain ⟨hm, hle⟩ := ih hx
          exact ⟨List.mem_cons_of_mem _ hm, hle⟩

/-- On a timestamp-sorted series, an `asof` hit is the latest sample not
exceeding the query ("floor" semantics, ties to the latest). -/
theorem asof_maximal {α : Type} (l : List (Nat × α)) (q : Nat)
    (hs : l.Pairwise (fun a b => a.1 ≤ b.1)) (tv : Nat × α)
    (h : asof l q = some tv) : ∀ p ∈ l, p.1 ≤ q → p.1 ≤ tv.1 := by
  induction l with
  | nil => exact Option.noConfusion h
  | cons x xs ih =>
      rw [show asof (x :: xs) q =
            (match asof xs q with
             | some tv => some tv
             | Option.none => if x.1 ≤ q then some x else Option.none) from rfl] at h
      rw [List.pairwise_cons] at hs
      intro p hp hpq
      cases hx : asof xs q with
      | none =>
          rw [hx] at h
          by_cases hq : x.1 ≤ q
          · rw [if_pos hq] at h
            cases h
            rcases List.mem_cons.mp hp with rfl | hmem
            · exact le_refl _
            · exact absurd hpq (Nat.not_le_of_lt ((asof_eq_none_iff xs q).mp hx p hmem))
          · rw [if_neg hq] at h
            exact Option.noConfusion h
      | some tv2 =>
          rw [hx] at h
          cases h
          rcases List.mem_cons.mp hp with rfl | hmem
          · exact hs.1 _ ((asof_mem_le xs q _ hx).1)
          · exact ih hs.2 hx p hmem hpq

theorem ewmFrom_length (a p : ℚ) (l : List ℚ) :
    (ewmFrom a p l).length = l.length := by
  induction l generalizing p with
  | nil => rfl
  | cons x xs ih => simp [ewmFrom, ih]

theorem ewm_length (a : ℚ) (l : List ℚ) : (ewm a l).length = l.length := by
  cases l with
  | nil => rfl
  | cons x xs => simp [ewm, ewmFrom_length]

theorem ewmSpan_length (span : Nat) (l : List ℚ) :
    (ewmSpan span l).length = l.length := ewm_length _ _

theorem ewmFrom_getD (a : ℚ) : ∀ (l : List ℚ) (p : ℚ) (i : Nat),
    i < l.length →
    (ewmFrom a p l).getD i 0 = a * l.getD i 0 + (1 - a) *
      (if i = 0 then p else (ewmFrom a p l).getD (i - 1) 0)
  | [], _, _, h => absurd h (Nat.not_lt_zero _)
  | y :: ys, p, 0, _ => by simp [ewmFrom]
  | y :: ys, p, j + 1, h => by
      have hj : j < ys.length := Nat.lt_of_succ_lt_succ (by simpa using h)
      have ih := ewmFrom_getD a ys (a * y + (1 - a) * p) j hj
      cases j with
      | zero => simpa [ewmFrom] using ih
      | succ k => simpa [ewmFrom] using ih

theorem ewm_getD_zero (a : ℚ) (l : List ℚ) :
    (ewm a l).getD 0 0 = l.getD 0 0 := by
  cases l with
  | nil => rfl
  | cons x xs => rfl

theorem ewm_getD_succ (a : ℚ) (l : List ℚ) (i : Nat) (h : i + 1 < l.length) :
    (ewm a l).getD (i + 1) 0 =
      a * l.getD (i + 1) 0 + (1 - a) * (ewm a l).getD i 0 := by
  cases l with
  | nil => exact absurd h (Nat.not_lt_zero _)
  | cons x xs =>
      have hi : i < xs.length := Nat.lt_of_succ_lt_succ (by simpa using h)
      have hrec := ewmFrom_getD a xs x i hi
      cases i with
      | zero => simpa [ewm] using hrec
      | succ k => simpa [ewm] using hrec

theorem newDayReset_fields (s : BuyState) (bar : SpotBar) :
    (newDayReset s bar).positionActive = s.positionActive ∧
    (newDayReset s bar).totalTradesCount = s.totalTradesCount ∧
    (newDayReset s bar).posType = s.posType ∧
    (newDayReset s bar).entryPrice = s.entryPrice ∧
    (newDayReset s bar).entryTime = s.entryTime ∧
    (newDayReset s bar).activeScrip = s.activeScrip ∧
    (newDayReset s bar).slMode = s.slMode ∧
    (newDayReset s bar).currentSlPrice = s.currentSlPrice ∧
    (newDayReset s bar).maxPnlReached = s.maxPnlReached ∧
    (newDayReset s bar).summaryLog = s.summaryLog ∧
    (newDayReset s bar).currentTradeLedger = s.currentTradeLedger := by
  unfold newDayReset
  split <;> exact ⟨rfl, rfl, rfl, rfl, rfl, rfl, rfl, rfl, rfl, rfl, rfl⟩

theorem getOptionPrice_snd (env : BuyEnv) (s : BuyState) (scrip : String)
    (ts : Nat) :
    (getOptionPrice env s scrip ts).2 = s ∨
      ∃ df, (getOptionPrice env s scrip ts).2 =
        { s with activeOptionDf := some df, activeScrip := scrip } := by
  simp only [getOptionPrice]
  by_cases hc : s.activeOptionDf = Option.none ∨ s.activeScrip ≠ scrip
  · simp only [if_pos hc]
    cases henv : env scrip with
    | none => simp
    | some raw =>
        simp only [Option.getD_some]
        cases hasof : asof (sortByTs raw) ts with
        | none => simp [hasof]
        | some tv => simp [hasof]
  · simp only [if_neg hc]
    cases hasof : asof (s.activeOptionDf.getD []) ts with
    | none => simp [hasof]
    | some tv => simp [hasof]

/-- `get_option_price` touches only the caching fields of the state. -/
theorem getOptionPrice_preserves (env : BuyEnv) (s : BuyState)
    (scrip : String) (ts : Nat) :
    (getOptionPrice env s scrip ts).2.currentDate = s.currentDate ∧
    (getOptionPrice env s scrip ts).2.tradesToday = s.tradesToday ∧
    (getOptionPrice env s scrip ts).2.totalTradesCount = s.totalTradesCount ∧
    (getOptionPrice env s scrip ts).2.positionActive = s.positionActive ∧
    (getOptionPrice env s scrip ts).2.posType = s.posType ∧
    (getOptionPrice env s scrip ts).2.entryPrice = s.entryPrice ∧
    (getOptionPrice env s scrip ts).2.entryTime = s.entryTime ∧
    (getOptionPrice env s scrip ts).2.slMode = s.slMode ∧
    (getOptionPrice env s scrip ts).2.currentSlPrice = s.currentSlPrice ∧
    (getOptionPrice env s scrip ts).2.maxPnlReached = s.maxPnlReached ∧
    (getOptionPrice env s scrip ts).2.summaryLog = s.summaryLog ∧
    (getOptionPrice env s scrip ts).2.currentTradeLedger = s.currentTradeLedger := by
  rcases getOptionPrice_snd env s scrip ts with h | ⟨df, h⟩ <;> rw [h] <;>
    exact ⟨rfl, rfl, rfl, rfl, rfl, rfl, rfl, rfl, rfl, rfl, rfl, rfl⟩

theorem tslUpdate_preserves (s : BuyState) (bar : SpotBar) (price pnl : ℚ) :
    (tslUpdate s bar price pnl).currentDate = s.currentDate ∧
    (tslUpdate s bar price pnl).tradesToday = s.tradesToday ∧
    (tslUpdate s bar price pnl).totalTradesCount = s.totalTradesCount ∧
    (tslUpdate s bar price pnl).positionActive = s.positionActive ∧
    (tslUpdate s bar price pnl).posType = s.posType ∧
    (tslUpdate s bar price pnl).entryPrice = s.entryPrice ∧
    (tslUpdate s bar price pnl).entryTime = s.entryTime ∧
    (tslUpdate s bar price pnl).activeScrip = s.activeScrip ∧
    (tslUpdate s bar price pnl).activeOptionDf = s.activeOptionDf ∧
    (tslUpdate s bar price pnl).summaryLog = s.summaryLog := by
  simp only [tslUpdate, logTradeStep]
  split_ifs <;>
    exact ⟨rfl, rfl, rfl, rfl, rfl, rfl, rfl, rfl, rfl, rfl⟩

theorem closeTrade_fields (s : BuyState) (reason : String) (bar : SpotBar)
    (price : ℚ) :
    (closeTrade s reason bar price).positionActive = false ∧
    (closeTrade s reason bar price).totalTradesCount = s.totalTradesCount ∧
    (closeTrade s reason bar price).tradesToday = s.tradesToday ∧
    (closeTrade s reason bar price).entryPrice = s.entryPrice ∧
    (closeTrade s reason bar price).slMode = s.slMode ∧
    (closeTrade s reason bar price).currentSlPrice = s.currentSlPrice ∧
    (closeTrade s reason bar price).summaryLog = s.summaryLog ++
      [{ tradeId := s.totalTradesCount, scripName := s.activeScrip,
         buyTime := s.entryTime, sellTime := (bar.date, bar.timeMin),
         buyPrice := round2 s.entryPrice, sellPrice := round2 price,
         pnl := round2 ((price - s.entryPrice) * LOT_SIZE),
         exitReason := reason }] :=
  ⟨rfl, rfl, rfl, rfl, rfl, rfl, rfl⟩

theorem getOptionIndicators_snd (env : SellEnv) (s : SellState)
    (scrip : String) (ts : Nat) :
    (getOptionIndicators env s scrip ts).2 = s ∨
      ∃ df, (getOptionIndicators env s scrip ts).2 =
        { s with activeOptionDf := some df } := by
  simp only [getOptionIndicators]
  by_cases hc : s.positionActive ∧ scrip = s.activeScrip ∧
      s.activeOptionDf ≠ Option.none
  · simp only [if_pos hc]
    cases hasof : asof (s.activeOptionDf.getD []) ts with
    | none => simp [hasof]
    | some tr => simp only [hasof]; split <;> simp
  · simp only [if_neg hc]
    cases henv : env scrip with
    | none => simp
    | some raw =>
        simp only [henv]
        by_cases hcache : s.positionActive ∧ scrip = s.activeScrip
        · simp only [if_pos hcache]
          cases hasof : asof (computeIndicators (sortByTs raw)) ts with
          | none => simp [hasof]
          | some tr => simp only [hasof]; split <;> simp
        · simp only [if_neg hcache]
          cases hasof : asof (computeIndicators (sortByTs raw)) ts with
          | none => simp [hasof]
          | some tr => simp only [hasof]; split <;> simp

/-- `get_option_indicators` can change only the cached dataframe. -/
theorem getOptionIndicators_preserves (env : SellEnv) (s : SellState)
    (scrip : String) (ts : Nat) :
    (getOptionIndicators env s scrip ts).2.totalTradesCount = s.totalTradesCount ∧
    (getOptionIndicators env s scrip ts).2.positionActive = s.positionActive ∧
    (getOptionIndicators env s scrip ts).2.posType = s.posType ∧
    (getOptionIndicators env s scrip ts).2.entryPrice = s.entryPrice ∧
    (getOptionIndicators env s scrip ts).2.activeScrip = s.activeScrip ∧
    (getOptionIndicators env s scrip ts).2.entryTime = s.entryTime ∧
    (getOptionIndicators env s scrip ts).2.summaryLog = s.summaryLog ∧
    (getOptionIndicators env s scrip ts).2.currentTradeLedger = s.currentTradeLedger := by
  rcases getOptionIndicators_snd env s scrip ts with h | ⟨df, h⟩ <;> rw [h] <;>
    exact ⟨rfl, rfl, rfl, rfl, rfl, rfl, rfl, rfl⟩

theorem sellCloseTrade_fields (s : SellState) (reason : String) (bar : SpotBar)
    (price : ℚ) :
    (sellCloseTrade s reason bar price).positionActive = false ∧
    (sellCloseTrade s reason bar price).totalTradesCount = s.totalTradesCount ∧
    (sellCloseTrade s reason bar price).activeOptionDf = Option.none ∧
    (sellCloseTrade s reason bar price).summaryLog = s.summaryLog ++
      [{ tradeId := s.totalTradesCount, scripName := s.activeScrip,
         posType := s.posType, sellTime := s.entryTime,
         buyTime := (bar.date, bar.timeMin),
         sellPrice := round2 s.entryPrice, buyPrice := round2 price,
         pnl := round2 ((s.entryPrice - price) * LOT_SIZE),
         exitReason := reason }] :=
  ⟨rfl, rfl, rfl, rfl⟩

theorem map_zip3_fst {α β γ δ : Type} :
    ∀ (l : List α) (a : List β) (b : List γ) (c : List δ),
      l.length = a.length → a.length = b.length → b.length = c.length →
      (l.zip (a.zip (b.zip c))).map (fun x => x.2.1) = a
  | [], [], _, _, _, _, _ => rfl
  | [], _ :: _, _, _, h, _, _ => by simp at h
  | _ :: _, [], _, _, h, _, _ => by simp at h
  | _ :: _, _ :: _, [], _, _, h, _ => by simp at h
  | _ :: _, _ :: _, _ :: _, [], _, _, h => by simp at h
  | x :: xs, y :: ys, z :: zs, w :: ws, h1, h2, h3 => by
      simp only [List.zip_cons_cons, List.map_cons]
      rw [map_zip3_fst xs ys zs ws (by simpa using h1) (by simpa using h2)
            (by simpa using h3)]

theorem map_zip3_snd {α β γ δ : Type} :
    ∀ (l : List α) (a : List β) (b : List γ) (c : List δ),
      l.length = a.length → a.length = b.length → b.length = c.length →
      (l.zip (a.zip (b.zip c))).map (fun x => x.2.2.1) = b
  | [], _, [], _, _, _, _ => rfl
  | [], _, _ :: _, _, h1, h2, _ => by simp at h1 h2; omega
  | _ :: _, [], _, _, h, _, _ => by simp at h
  | _ :: _, _ :: _, [], _, _, h, _ => by simp at h
  | _ :: _, _ :: _, _ :: _, [], _, _, h => by simp at h
  | x :: xs, y :: ys, z :: zs, w :: ws, h1, h2, h3 => by
      simp only [List.zip_cons_cons, List.map_cons]
      rw [map_zip3_snd xs ys zs ws (by simpa using h1) (by simpa using h2)
            (by simpa using h3)]

theorem map_zip3_thd {α β γ δ : Type} :
    ∀ (l : List α) (a : List β) (b : List γ) (c : List δ),
      l.length = a.length → a.length = b.length → b.length = c.length →
      (l.zip (a.zip (b.zip c))).map (fun x => x.2.2.2) = c
  | [], _, _, [], _, _, _ => rfl
  | [], _, _, _ :: _, h1, h2, h3 => by simp at h1 h2 h3; omega
  | _ :: _, [], _, _, h, _, _ => by simp at h
  | _ :: _, _ :: _, [], _, _, h, _ => by simp at h
  | _ :: _, _ :: _, _ :: _, [], _, _, h => by simp at h
  | x :: xs, y :: ys, z :: zs, w :: ws, h1, h2, h3 => by
      simp only [List.zip_cons_cons, List.map_cons]
      rw [map_zip3_thd xs ys zs ws (by simpa using h1) (by simpa using h2)
            (by simpa using h3)]

/-- The three indicator columns attached by `computeIndicators` are exactly
the `ewm` of the corresponding price columns. -/
theorem computeIndicators_cols (l : List (Nat × OHLC)) :
    (computeIndicators l).map (fun x => x.2.ema19Close) =
      ewmSpan EMA_FAST (l.map (fun x => x.2.close)) ∧
    (computeIndicators l).map (fun x => x.2.ema50High) =
      ewmSpan EMA_SLOW (l.map (fun x => x.2.high)) ∧
    (computeIndicators l).map (fun x => x.2.ema50Low) =
      ewmSpan EMA_SLOW (l.map (fun x => x.2.low)) := by
  have h19 : l.length = (ewmSpan EMA_FAST (l.map (fun x => x.2.close))).length := by
    rw [ewmSpan_length, List.length_map]
  have h50h : (ewmSpan EMA_FAST (l.map (fun x => x.2.close))).length =
      (ewmSpan EMA_SLOW (l.map (fun x => x.2.high))).length := by
    rw [ewmSpan_length, ewmSpan_length, List.length_map, List.length_map]
  have h50l : (ewmSpan EMA_SLOW (l.map (fun x => x.2.high))).length =
      (ewmSpan EMA_SLOW (l.map (fun x => x.2.low))).length := by
    rw [ewmSpan_length, ewmSpan_length, List.length_map, List.length_map]
  refine ⟨?_, ?_, ?_⟩
  · simp only [computeIndicators, List.map_map]
    exact map_zip3_fst _ _ _ _ h19 h50h h50l
  · simp only [computeIndicators, List.map_map]
    exact map_zip3_snd _ _ _ _ h19 h50h h50l
  · simp only [computeIndicators, List.map_map]
    exact map_zip3_thd _ _ _ _ h19 h50h h50l

/-- In the `COST`/`TRAILING` modes the ratchet assigns only on a strict
increase; from `NONE` the move-to-cost sets the stop to the entry price.
With the entry-time facts (stop 0 while `NONE`, non-negative entry price)
the stop never decreases within a bar's TSL update. -/
theorem tslUpdate_sl_le (s : BuyState) (bar : SpotBar) (price pnl : ℚ)
    (h0 : s.slMode = SLMode.none → s.currentSlPrice = 0)
    (he : 0 ≤ s.entryPrice) :
    s.currentSlPrice ≤ (tslUpdate s bar price pnl).currentSlPrice := by
  simp only [tslUpdate, logTradeStep]
  split_ifs with h1 h2 h3 h4 h5 h6 h7 h8 h9 h10 <;>
    simp_all <;> linarith

theorem tslUpdate_slMode_of_ne (s : BuyState) (bar : SpotBar) (price pnl : ℚ)
    (h : s.slMode ≠ SLMode.none) :
    (tslUpdate s bar price pnl).slMode = s.slMode ∨
      (tslUpdate s bar price pnl).slMode = SLMode.trailing := by
  simp only [tslUpdate, logTradeStep]
  split_ifs <;> simp_all

theorem buyHold_totalTrades (s1 : BuyState) (bar : SpotBar) (p : ℚ) :
    (buyHold s1 bar p).totalTradesCount = s1.totalTradesCount := by
  simp only [buyHold]
  split_ifs <;> exact (tslUpdate_preserves _ _ _ _).2.2.1

theorem buyActiveBar_totalTrades (env : BuyEnv) (s : BuyState)
    (bar : SpotBar) :
    (buyActiveBar env s bar).totalTradesCount = s.totalTradesCount := by
  have hpres := (getOptionPrice_preserves env s s.activeScrip bar.ts).2.2.1
  unfold buyActiveBar
  split
  · split
    · rename_i s1 heq
      have h2 : (getOptionPrice env s s.activeScrip bar.ts).2 = s1 := by rw [heq]
      exact ((closeTrade_fields s1 "EXPIRY_FORCE" bar s1.entryPrice).2.1).trans
        (h2 ▸ hpres)
    · rename_i p s1 heq
      have h2 : (getOptionPrice env s s.activeScrip bar.ts).2 = s1 := by rw [heq]
      exact ((closeTrade_fields s1 "EXPIRY_FORCE" bar p).2.1).trans (h2 ▸ hpres)
  · split
    · rename_i s1 heq
      have h2 : (getOptionPrice env s s.activeScrip bar.ts).2 = s1 := by rw [heq]
      exact h2 ▸ hpres
    · rename_i p s1 heq
      have h2 : (getOptionPrice env s s.activeScrip bar.ts).2 = s1 := by rw [heq]
      exact (buyHold_totalTrades s1 bar p).trans (h2 ▸ hpres)

theorem sellHoldBar_totalTrades (env : SellEnv) (s : SellState) (bar : SpotBar)
    (isRollover : Bool) :
    (sellHoldBar env s bar isRollover).totalTradesCount = s.totalTradesCount := by
  have hpres := (getOptionIndicators_preserves env s s.activeScrip bar.ts).1
  unfold sellHoldBar
  split
  · rename_i s1 heq
    have h2 : (getOptionIndicators env s s.activeScrip bar.ts).2 = s1 := by
      rw [heq]
    exact h2 ▸ hpres
  · rename_i row s1 heq
    have h2 : (getOptionIndicators env s s.activeScrip bar.ts).2 = s1 := by
      rw [heq]
    have h1 : s1.totalTradesCount = s.totalTradesCount := h2 ▸ hpres
    dsimp only
    split_ifs <;>
      first
        | exact ((sellCloseTrade_fields _ _ _ _).2.1).trans h1
        | exact h1

/-- With a position open, the buying `next` runs the active-position
section. -/
theorem buyNext_active (env : BuyEnv) (s : BuyState) (bar : SpotBar)
    (h : s.positionActive = true) :
    buyNext env s bar = buyActiveBar env (newDayReset s bar) bar := by
  simp only [buyNext]
  rw [if_pos (show (newDayReset s bar).positionActive = true from
    (newDayReset_fields s bar).1.trans h)]

/-- With no position open, the buying `next` runs the entry section. -/
theorem buyNext_flat (env : BuyEnv) (s : BuyState) (bar : SpotBar)
    (h : s.positionActive = false) :
    buyNext env s bar = buyEntryBar env (newDayReset s bar) bar := by
  simp only [buyNext]
  rw [if_neg (show ¬(newDayReset s bar).positionActive = true by
    rw [(newDayReset_fields s bar).1, h]; exact Bool.false_ne_true)]

/-- With a position open, the selling `next` runs the active-position
section. -/
theorem sellNext_active (env : SellEnv) (s : SellState) (bar : SpotBar)
    (h : s.positionActive = true) :
    sellNext env s bar =
      sellHoldBar env s bar (decide (bar.expiry - bar.date ≤ ROLLOVER_DAYS)) := by
  simp only [sellNext]
  rw [if_pos h]

/-- With no position open, the selling `next` runs the entry section. -/
theorem sellNext_flat (env : SellEnv) (s : SellState) (bar : SpotBar)
    (h : s.positionActive = false) :
    sellNext env s bar =
      sellEntryBar env s bar (decide (bar.expiry - bar.date ≤ ROLLOVER_DAYS)) := by
  simp only [sellNext]
  rw [if_neg (by rw [h]; exact Bool.false_ne_true)]

/-- C1: entry evaluation happens only in the FLAT state, so a second
position can never be opened while one is open.  In both variants
`total_trades_count` is incremented exactly when a trade is opened
(`entry_setup` / `open_trade`), and on any bar processed with
`position_active` true, `next` dispatches to the active-position branch and
leaves the trade count unchanged — no entry is evaluated or performed. -/
theorem atMostOnePosition_entryOnlyWhenFlat :
    (∀ (env : BuyEnv) (s : BuyState) (bar : SpotBar),
        s.positionActive = true →
        buyNext env s bar = buyActiveBar env (newDayReset s bar) bar ∧
        (buyNext env s bar).totalTradesCount = s.totalTradesCount) ∧
    (∀ (env : SellEnv) (s : SellState) (bar : SpotBar),
        s.positionActive = true →
        sellNext env s bar =
          sellHoldBar env s bar (decide (bar.expiry - bar.date ≤ ROLLOVER_DAYS)) ∧
        (sellNext env s bar).totalTradesCount = s.totalTradesCount) := by
  constructor
  · intro env s bar h
    refine ⟨buyNext_active env s bar h, ?_⟩
    rw [buyNext_active env s bar h]
    exact (buyActiveBar_totalTrades env _ bar).trans (newDayReset_fields s bar).2.1
  · intro env s bar h
    exact ⟨sellNext_active env s bar h, by
      rw [sellNext_active env s bar h]
      exact sellHoldBar_totalTrades env s bar _⟩

def c1Bar : SpotBar :=
  { date := 20000, timeMin := 600, ts := 100000, expiry := 20010,
    scripCE := "CE1", scripPE := "PE1",
    ema5Prev := 1, ema5 := 1, ema20HighPrev := 1, ema20High := 1,
    ema20LowPrev := 1, ema20Low := 1 }

def c1BuyState : BuyState :=
  { currentDate := some 20000, tradesToday := 1, totalTradesCount := 1,
    positionActive := true, posType := some PosType.ce, entryPrice := 100,
    entryTime := some (20000, 580), activeScrip := "CE1",
    slMode := SLMode.none, currentSlPrice := 0, maxPnlReached := 0,
    activeOptionDf := Option.none, summaryLog := [],
    currentTradeLedger := [] }

def c1SellState : SellState :=
  { totalTradesCount := 1, positionActive := true,
    posType := some PosType.pe, entryPrice := 100, activeScrip := "PE1",
    entryTime := some (20000, 850), activeOptionDf := Option.none,
    summaryLog := [], currentTradeLedger := [] }

/-- Witness for C1 at a concrete held state: the embedded machines with a
missing option file keep the trade count unchanged on a held bar. -/
theorem atMostOnePosition_entryOnlyWhenFlat_witness :
    (buyNext (fun _ => Option.none) c1BuyState c1Bar).totalTradesCount =
      c1BuyState.totalTradesCount ∧
    (sellNext (fun _ => Option.none) c1SellState c1Bar).totalTradesCount =
      c1SellState.totalTradesCount :=
  ⟨(atMostOnePosition_entryOnlyWhenFlat.1 (fun _ => Option.none) c1BuyState
      c1Bar rfl).2,
   (atMostOnePosition_entryOnlyWhenFlat.2 (fun _ => Option.none) c1SellState
      c1Bar rfl).2⟩

/-- C3: as-of price resolution.  On a sorted series the lookup returns the
latest sample whose timestamp is ≤ the query (floor semantics, no
interpolation) and is unavailable exactly when no such sample exists.  On
the cache-hit path, the buying variant's `get_option_price` returns the
as-of close with no staleness ceiling (a past sample of any age), while the
selling variant's `get_option_indicators` additionally returns unavailable
exactly when the lag exceeds 900 seconds (a lag of exactly 900 is
accepted). -/
theorem asofResolution_floor_and_staleness :
    (∀ {α : Type} (l : List (Nat × α)) (q : Nat) (tv : Nat × α),
        l.Pairwise (fun a b => a.1 ≤ b.1) →
        asof l q = some tv →
        tv ∈ l ∧ tv.1 ≤ q ∧ ∀ p ∈ l, p.1 ≤ q → p.1 ≤ tv.1) ∧
    (∀ {α : Type} (l : List (Nat × α)) (q : Nat),
        asof l q = Option.none ↔ ∀ p ∈ l, q < p.1) ∧
    (∀ (env : BuyEnv) (s : BuyState) (df : List (Nat × ℚ)) (ts : Nat),
        s.activeOptionDf = some df →
        (getOptionPrice env s s.activeScrip ts).1 =
          (asof df ts).map (fun tv => tv.2)) ∧
    (∀ (env : SellEnv) (s : SellState) (df : List (Nat × IndRow)) (ts : Nat)
        (t : Nat) (row : IndRow),
        s.positionActive = true → s.activeOptionDf = some df →
        asof df ts = some (t, row) →
        (getOptionIndicators env s s.activeScrip ts).1 =
          (if 900 < (ts : ℤ) - t then Option.none else some row)) ∧
    (∀ (env : SellEnv) (s : SellState) (df : List (Nat × IndRow)) (ts : Nat),
        s.positionActive = true → s.activeOptionDf = some df →
        asof df ts = Option.none →
        (getOptionIndicators env s s.activeScrip ts).1 = Option.none) := by
  refine ⟨?_, ?_, ?_, ?_, ?_⟩
  · intro α l q tv hs h
    obtain ⟨hm, hle⟩ := asof_mem_le l q tv h
    exact ⟨hm, hle, asof_maximal l q hs tv h⟩
  · intro α l q
    exact asof_eq_none_iff l q
  · intro env s df ts h1
    simp only [getOptionPrice, h1]
    cases hasof : asof df ts with
    | none => simp [h1, hasof]
    | some tv => simp [h1, hasof]
  · intro env s df ts t row hact h1 hasof
    simp [getOptionIndicators, hact, h1, hasof]
    split <;> rfl
  · intro env s df ts hact h1 hasof
    simp [getOptionIndicators, hact, h1, hasof]

/-- The spec's example series: samples at 09:15, 09:20, 09:30 (seconds from
midnight) with distinct values. -/
def c3Series : List (Nat × ℚ) := [(33300, 1), (33600, 2), (34200, 3)]

def c3IndRow : IndRow :=
  { close := 2, high := 2, low := 2, ema19Close := 2, ema50High := 2,
    ema50Low := 2 }

def c3SellDf : List (Nat × IndRow) := [(33600, c3IndRow)]

/-- A series whose last sample is at 09:20, for exercising staleness. -/
def c3StaleSeries : List (Nat × ℚ) := [(33600, 2)]

def c3BuyState : BuyState :=
  { c1BuyState with activeOptionDf := some c3StaleSeries }

def c3SellState : SellState :=
  { c1SellState with activeOptionDf := some c3SellDf }

/-- Witness for C3 on the spec's example: the 09:27 query floors to the
09:20 sample; the buying resolver accepts it even 960 s stale (09:36),
while the selling resolver rejects 960 s and 901 s but accepts a lag of
exactly 900 s. -/
theorem asofResolution_floor_and_staleness_witness :
    ((33600, (2 : ℚ)) ∈ c3Series ∧ 33600 ≤ 34020 ∧
      ∀ p ∈ c3Series, p.1 ≤ 34020 → p.1 ≤ 33600) ∧
    (asof c3Series 33000 = Option.none) ∧
    (getOptionPrice (fun _ => Option.none) c3BuyState c3BuyState.activeScrip
        34560).1 = some 2 ∧
    (getOptionIndicators (fun _ => Option.none) c3SellState
        c3SellState.activeScrip 34560).1 = Option.none ∧
    (getOptionIndicators (fun _ => Option.none) c3SellState
        c3SellState.activeScrip 34501).1 = Option.none ∧
    (getOptionIndicators (fun _ => Option.none) c3SellState
        c3SellState.activeScrip 34500).1 = some c3IndRow := by
  refine ⟨?_, ?_, ?_, ?_, ?_, ?_⟩
  · have h := asofResolution_floor_and_staleness.1 c3Series 34020 (33600, 2)
      (by decide) (by decide)
    exact ⟨h.1, h.2.1, h.2.2⟩
  · exact (asofResolution_floor_and_staleness.2.1 c3Series 33000).mpr
      (by decide)
  · rw [asofResolution_floor_and_staleness.2.2.1 (fun _ => Option.none)
      c3BuyState c3StaleSeries 34560 rfl]
    decide
  · rw [asofResolution_floor_and_staleness.2.2.2.1 (fun _ => Option.none)
      c3SellState c3SellDf 34560 33600 c3IndRow rfl rfl (by decide)]
    decide
  · rw [asofResolution_floor_and_staleness.2.2.2.1 (fun _ => Option.none)
      c3SellState c3SellDf 34501 33600 c3IndRow rfl rfl (by decide)]
    decide
  · rw [asofResolution_floor_and_staleness.2.2.2.1 (fun _ => Option.none)
      c3SellState c3SellDf 34500 33600 c3IndRow rfl rfl (by decide)]
    decide

/-- C8: the indicator engine's EMA (pandas `ewm(span, adjust=False).mean()`,
used by the in-repo indicator computation on loaded contract series)
satisfies `ema[0] = price[0]` and `ema[i] = α·price[i] + (1−α)·ema[i−1]`
with `α = 2/(span+1)`, computed over the full series at load time; the
loaded dataframe's three indicator columns are exactly those EMAs of the
respective price columns, and for prices [10, 12, 14] with span 19 the
values are 10, 10.2, 10.58. -/
theorem emaRecurrence :
    (∀ (span : Nat) (l : List ℚ), (ewmSpan span l).getD 0 0 = l.getD 0 0) ∧
    (∀ (span : Nat) (l : List ℚ) (i : Nat), i + 1 < l.length →
        (ewmSpan span l).getD (i + 1) 0 =
          (2 / (span + 1 : ℚ)) * l.getD (i + 1) 0 +
            (1 - 2 / (span + 1 : ℚ)) * (ewmSpan span l).getD i 0) ∧
    (∀ (l : List (Nat × OHLC)),
        (computeIndicators l).map (fun x => x.2.ema19Close) =
          ewmSpan EMA_FAST (l.map (fun x => x.2.close)) ∧
        (computeIndicators l).map (fun x => x.2.ema50High) =
          ewmSpan EMA_SLOW (l.map (fun x => x.2.high)) ∧
        (computeIndicators l).map (fun x => x.2.ema50Low) =
          ewmSpan EMA_SLOW (l.map (fun x => x.2.low))) ∧
    ewmSpan 19 [10, 12, 14] = [10, 10.2, 10.58] := by
  refine ⟨?_, ?_, computeIndicators_cols, ?_⟩
  · intro span l
    exact ewm_getD_zero _ l
  · intro span l i h
    exact ewm_getD_succ _ l i h
  · norm_num [ewmSpan, ewm, ewmFrom]

/-- Witness for C8 at the spec's concrete example: the recurrence applied at
index 1 of [10, 12, 14] with span 19. -/
theorem emaRecurrence_witness :
    (ewmSpan 19 [10, 12, 14]).getD (0 + 1) 0 =
      (2 / ((19 : Nat) + 1 : ℚ)) * ([10, 12, 14] : List ℚ).getD (0 + 1) 0 +
        (1 - 2 / ((19 : Nat) + 1 : ℚ)) * (ewmSpan 19 [10, 12, 14]).getD 0 0 :=
  emaRecurrence.2.1 19 [10, 12, 14] 0 (by decide)

/-- C9: for every closed trade the recorded summary PnL is
`(exitPrice − entryPrice) × quantity` in the buying (long) variant and
`(entryPrice − exitPrice) × quantity` in the selling (short) variant,
rounded to 2 decimals only at the recording boundary — the rounding is
applied to the full-precision product, and the state keeps the exact
resolved entry price (only the ledger row holds the rounded copy), so
ratchet/threshold comparisons run at full precision. -/
theorem summaryPnl_roundedAtBoundaryOnly :
    (∀ (s : BuyState) (reason : String) (bar : SpotBar) (price : ℚ),
        ∃ r : BuySummary,
          (closeTrade s reason bar price).summaryLog = s.summaryLog ++ [r] ∧
          r.pnl = round2 ((price - s.entryPrice) * LOT_SIZE) ∧
          r.buyPrice = round2 s.entryPrice ∧ r.sellPrice = round2 price ∧
          r.exitReason = reason) ∧
    (∀ (s : SellState) (reason : String) (bar : SpotBar) (price : ℚ),
        ∃ r : SellSummary,
          (sellCloseTrade s reason bar price).summaryLog = s.summaryLog ++ [r] ∧
          r.pnl = round2 ((s.entryPrice - price) * LOT_SIZE) ∧
          r.sellPrice = round2 s.entryPrice ∧ r.buyPrice = round2 price ∧
          r.exitReason = reason) ∧
    (∀ (env : BuyEnv) (s s1 : BuyState) (bar : SpotBar) (p : ℚ),
        getOptionPrice env s bar.scripCE bar.ts = (some p, s1) → p ≠ 0 →
        (entrySetup env s PosType.ce bar).entryPrice = p ∧
        (entrySetup env s PosType.ce bar).currentTradeLedger.map
          (fun r => r.price) = [round2 p]) := by
  refine ⟨?_, ?_, ?_⟩
  · intro s reason bar price
    exact ⟨_, (closeTrade_fields s reason bar price).2.2.2.2.2.2, rfl, rfl,
      rfl, rfl⟩
  · intro s reason bar price
    exact ⟨_, (sellCloseTrade_fields s reason bar price).2.2.2, rfl, rfl, rfl,
      rfl⟩
  · intro env s s1 bar p hget hp
    simp only [entrySetup, hget]
    rw [if_pos hp]
    exact ⟨rfl, rfl⟩

def c9Env : BuyEnv := fun _ => some [(99900, 55)]

def c9Bar : SpotBar := { c1Bar with ts := 100000 }

def c9FlatState : BuyState :=
  { c1BuyState with positionActive := false, posType := Option.none }

/-- A flat state whose cache already holds the CE1 series (a cache hit at
the resolver). -/
def c9CacheState : BuyState :=
  { c9FlatState with activeOptionDf := some [(99900, 55)],
                     activeScrip := "CE1" }

/-- Witness for C9: a concrete entry at resolved price 55 stores the exact
price in the state and the rounded copy in the ledger. -/
theorem summaryPnl_roundedAtBoundaryOnly_witness :
    (entrySetup c9Env c9CacheState PosType.ce c9Bar).entryPrice = 55 ∧
    (entrySetup c9Env c9CacheState PosType.ce c9Bar).currentTradeLedger.map
      (fun r => r.price) = [round2 55] :=
  summaryPnl_roundedAtBoundaryOnly.2.2 c9Env c9CacheState c9CacheState
    c9Bar 55 (by decide) (by decide)

/-- C10: in the buying variant's `entry_setup`, a resolved option price of
exactly 0.0 is treated identically to an unavailable price — the Python
truthiness guard `if price:` rejects both — so the machine stays FLAT, the
counters are unchanged and no ledger or summary row is written (only the
resolver's cache fields may have been refreshed). -/
theorem zeroPriceEntry_noTrade :
    ∀ (env : BuyEnv) (s s1 : BuyState) (bar : SpotBar) (t : PosType),
      (getOptionPrice env s
          (match t with | PosType.ce => bar.scripCE | PosType.pe => bar.scripPE)
          bar.ts = (some 0, s1) ∨
        getOptionPrice env s
          (match t with | PosType.ce => bar.scripCE | PosType.pe => bar.scripPE)
          bar.ts = (Option.none, s1)) →
      entrySetup env s t bar = s1 ∧
      s1.positionActive = s.positionActive ∧
      s1.totalTradesCount = s.totalTradesCount ∧
      s1.tradesToday = s.tradesToday ∧
      s1.currentTradeLedger = s.currentTradeLedger ∧
      s1.summaryLog = s.summaryLog := by
  intro env s s1 bar t hget
  cases t with
  | ce =>
      have hget2 : getOptionPrice env s bar.scripCE bar.ts = (some 0, s1) ∨
          getOptionPrice env s bar.scripCE bar.ts = (Option.none, s1) := hget
      have hpres := getOptionPrice_preserves env s bar.scripCE bar.ts
      have hsnd : (getOptionPrice env s bar.scripCE bar.ts).2 = s1 := by
        rcases hget2 with h | h <;> rw [h]
      have h1 : entrySetup env s PosType.ce bar = s1 := by
        rcases hget2 with h | h
        · simp only [entrySetup, h]
          rw [if_neg (not_not_intro rfl)]
        · simp only [entrySetup, h]
      refine ⟨h1, ?_, ?_, ?_, ?_, ?_⟩
      · rw [← hsnd]; exact hpres.2.2.2.1
      · rw [← hsnd]; exact hpres.2.2.1
      · rw [← hsnd]; exact hpres.2.1
      · rw [← hsnd]; exact hpres.2.2.2.2.2.2.2.2.2.2.2
      · rw [← hsnd]; exact hpres.2.2.2.2.2.2.2.2.2.2.1
  | pe =>
      have hget2 : getOptionPrice env s bar.scripPE bar.ts = (some 0, s1) ∨
          getOptionPrice env s bar.scripPE bar.ts = (Option.none, s1) := hget
      have hpres := getOptionPrice_preserves env s bar.scripPE bar.ts
      have hsnd : (getOptionPrice env s bar.scripPE bar.ts).2 = s1 := by
        rcases hget2 with h | h <;> rw [h]
      have h1 : entrySetup env s PosType.pe bar = s1 := by
        rcases hget2 with h | h
        · simp only [entrySetup, h]
          rw [if_neg (not_not_intro rfl)]
        · simp only [entrySetup, h]
      refine ⟨h1, ?_, ?_, ?_, ?_, ?_⟩
      · rw [← hsnd]; exact hpres.2.2.2.1
      · rw [← hsnd]; exact hpres.2.2.1
      · rw [← hsnd]; exact hpres.2.1
      · rw [← hsnd]; exact hpres.2.2.2.2.2.2.2.2.2.2.2
      · rw [← hsnd]; exact hpres.2.2.2.2.2.2.2.2.2.2.1

def c10Env : BuyEnv := fun _ => some [(99900, 0)]

/-- Witness for C10: with the option file resolving to price 0.0 at the
query time, `entry_setup` leaves the machine flat with counters and logs
unchanged. -/
theorem zeroPriceEntry_noTrade_witness :
    entrySetup c10Env c9FlatState PosType.ce c9Bar =
      { c9FlatState with activeOptionDf := some [(99900, 0)],
                         activeScrip := "CE1" } ∧
    ({ c9FlatState with activeOptionDf := some [(99900, 0)],
                        activeScrip := "CE1" } : BuyState).positionActive =
      c9FlatState.positionActive :=
  ⟨(zeroPriceEntry_noTrade c10Env c9FlatState _ c9Bar PosType.ce
      (Or.inl (by decide))).1,
   (zeroPriceEntry_noTrade c10Env c9FlatState _ c9Bar PosType.ce
      (Or.inl (by decide))).2.1⟩

/-- C4: buying variant forced expiry exit.  On every bar whose date equals
the bar's recorded expiry date with local time at or after 15:15 while a
position is open, the position is closed with reason `EXPIRY_FORCE`, using
the resolved option price or the entry price as fallback when resolution is
unavailable — the check precedes the price-availability skip, so the close
happens even when no price resolves. -/
theorem expiryForceExit :
    ∀ (env : BuyEnv) (s : BuyState) (bar : SpotBar),
      s.positionActive = true → bar.date = bar.expiry → 915 ≤ bar.timeMin →
      (buyNext env s bar).positionActive = false ∧
      ∃ r : BuySummary,
        (buyNext env s bar).summaryLog = s.summaryLog ++ [r] ∧
        r.exitReason = "EXPIRY_FORCE" ∧
        r.sellPrice = round2
          (((getOptionPrice env (newDayReset s bar)
              (newDayReset s bar).activeScrip bar.ts).1).getD s.entryPrice) := by
  intro env s bar hact hdate htime
  rw [buyNext_active env s bar hact]
  have hd := newDayReset_fields s bar
  have hpres := getOptionPrice_preserves env (newDayReset s bar)
    (newDayReset s bar).activeScrip bar.ts
  unfold buyActiveBar
  rw [if_pos ⟨hdate, htime⟩]
  rcases hget : getOptionPrice env (newDayReset s bar)
      (newDayReset s bar).activeScrip bar.ts with ⟨po, s1⟩
  have hs1 : (getOptionPrice env (newDayReset s bar)
      (newDayReset s bar).activeScrip bar.ts).2 = s1 := by rw [hget]
  have hsum : s1.summaryLog = s.summaryLog := by
    rw [← hs1]
    exact (hpres.2.2.2.2.2.2.2.2.2.2.1).trans hd.2.2.2.2.2.2.2.2.2.1
  have hent : s1.entryPrice = s.entryPrice := by
    rw [← hs1]
    exact (hpres.2.2.2.2.2.1).trans hd.2.2.2.1
  cases po with
  | none =>
      refine ⟨(closeTrade_fields s1 "EXPIRY_FORCE" bar s1.entryPrice).1,
        ⟨{ tradeId := s1.totalTradesCount, scripName := s1.activeScrip,
           buyTime := s1.entryTime, sellTime := (bar.date, bar.timeMin),
           buyPrice := round2 s1.entryPrice, sellPrice := round2 s1.entryPrice,
           pnl := round2 ((s1.entryPrice - s1.entryPrice) * LOT_SIZE),
           exitReason := "EXPIRY_FORCE" }, ?_, rfl, ?_⟩⟩
      · exact (closeTrade_fields s1 "EXPIRY_FORCE" bar s1.entryPrice).2.2.2.2.2.2.trans
          (by rw [hsum])
      · simp [hent]
  | some p =>
      refine ⟨(closeTrade_fields s1 "EXPIRY_FORCE" bar p).1,
        ⟨{ tradeId := s1.totalTradesCount, scripName := s1.activeScrip,
           buyTime := s1.entryTime, sellTime := (bar.date, bar.timeMin),
           buyPrice := round2 s1.entryPrice, sellPrice := round2 p,
           pnl := round2 ((p - s1.entryPrice) * LOT_SIZE),
           exitReason := "EXPIRY_FORCE" }, ?_, rfl, ?_⟩⟩
      · exact (closeTrade_fields s1 "EXPIRY_FORCE" bar p).2.2.2.2.2.2.trans
          (by rw [hsum])
      · simp

def c4Bar : SpotBar := { c1Bar with date := 20010, timeMin := 920 }

/-- Witness for C4: with the option file missing on the expiry bar at
15:20, the held position is force-closed with `EXPIRY_FORCE` at the
fallback entry price. -/
theorem expiryForceExit_witness :
    (buyNext (fun _ => Option.none) c1BuyState c4Bar).positionActive = false ∧
    ∃ r : BuySummary,
      (buyNext (fun _ => Option.none) c1BuyState c4Bar).summaryLog =
        c1BuyState.summaryLog ++ [r] ∧
      r.exitReason = "EXPIRY_FORCE" ∧
      r.sellPrice = round2
        (((getOptionPrice (fun _ => Option.none) (newDayReset c1BuyState c4Bar)
            (newDayReset c1BuyState c4Bar).activeScrip c4Bar.ts).1).getD
          c1BuyState.entryPrice) :=
  expiryForceExit (fun _ => Option.none) c1BuyState c4Bar rfl (by decide)
    (by decide)

theorem sellLogStep_summaryLog (s : SellState) (bar : SpotBar) (e : String)
    (p pnl : ℚ) (info : String) :
    (sellLogStep s bar e p pnl info).summaryLog = s.summaryLog := rfl

/-- C6: selling-variant rollover.  With days-to-expiry ≤ 4 the flat machine
performs no entry evaluation at all (the bar is a no-op, checked before any
signal), and a held position — on a bar whose row resolves — is closed with
reason `ROLLOVER_EXIT` before the reversal and target exits are considered,
regardless of the row's signal state. -/
theorem rolloverVetoAndExit :
    (∀ (env : SellEnv) (s : SellState) (bar : SpotBar),
        s.positionActive = false → bar.expiry - bar.date ≤ ROLLOVER_DAYS →
        sellNext env s bar = s) ∧
    (∀ (env : SellEnv) (s s1 : SellState) (bar : SpotBar) (row : IndRow),
        s.positionActive = true → bar.expiry - bar.date ≤ ROLLOVER_DAYS →
        getOptionIndicators env s s.activeScrip bar.ts = (some row, s1) →
        (sellNext env s bar).positionActive = false ∧
        ∃ r : SellSummary,
          (sellNext env s bar).summaryLog = s.summaryLog ++ [r] ∧
          r.exitReason = "ROLLOVER_EXIT" ∧ r.buyPrice = round2 row.close) := by
  constructor
  · intro env s bar hflat hroll
    rw [sellNext_flat env s bar hflat]
    unfold sellEntryBar
    rw [if_pos (decide_eq_true hroll)]
  · intro env s s1 bar row hact hroll hget
    rw [sellNext_active env s bar hact]
    have hs1 : (getOptionIndicators env s s.activeScrip bar.ts).2 = s1 := by
      rw [hget]
    have hsum : s1.summaryLog = s.summaryLog := by
      rw [← hs1]
      exact (getOptionIndicators_preserves env s s.activeScrip bar.ts).2.2.2.2.2.2.1
    unfold sellHoldBar
    rw [hget]
    dsimp only
    rw [if_pos (decide_eq_true hroll)]
    constructor
    · exact (sellCloseTrade_fields _ "ROLLOVER_EXIT" bar row.close).1
    · exact ⟨_,
        ((sellCloseTrade_fields _ "ROLLOVER_EXIT" bar row.close).2.2.2).trans
          (by rw [sellLogStep_summaryLog, hsum]), rfl, rfl⟩

/-- A held selling state with a cached PE series whose row triggers no
reversal and no target exit. -/
def c6Row : IndRow :=
  { close := 50, high := 50, low := 50, ema19Close := 1, ema50High := 2,
    ema50Low := 0 }

def c6SellState : SellState :=
  { c1SellState with activeOptionDf := some [(99900, c6Row)] }

/-- A bar four calendar days before expiry (inside the rollover window). -/
def c6Bar : SpotBar := { c1Bar with date := 20006, ts := 100000 }

def c6FlatSellState : SellState :=
  { c1SellState with positionActive := false, posType := Option.none }

/-- Witness for C6: at four days to expiry the flat machine is a no-op and
the held machine force-closes with `ROLLOVER_EXIT` although neither the
reversal nor the target condition holds on the resolved row. -/
theorem rolloverVetoAndExit_witness :
    sellNext (fun _ => Option.none) c6FlatSellState c6Bar = c6FlatSellState ∧
    ((sellNext (fun _ => Option.none) c6SellState c6Bar).positionActive = false ∧
      ∃ r : SellSummary,
        (sellNext (fun _ => Option.none) c6SellState c6Bar).summaryLog =
          c6SellState.summaryLog ++ [r] ∧
        r.exitReason = "ROLLOVER_EXIT" ∧ r.buyPrice = round2 c6Row.close) :=
  ⟨rolloverVetoAndExit.1 (fun _ => Option.none) c6FlatSellState c6Bar rfl
      (by decide),
   rolloverVetoAndExit.2 (fun _ => Option.none) c6SellState c6SellState c6Bar
      c6Row rfl (by decide) (by decide)⟩

theorem buyHold_sl_le (s1 : BuyState) (bar : SpotBar) (p : ℚ)
    (h0 : s1.slMode = SLMode.none → s1.currentSlPrice = 0)
    (he : 0 ≤ s1.entryPrice) :
    s1.currentSlPrice ≤ (buyHold s1 bar p).currentSlPrice := by
  simp only [buyHold]
  split_ifs <;> exact tslUpdate_sl_le _ bar p _ h0 he

theorem buyActiveBar_sl_le (env : BuyEnv) (s : BuyState) (bar : SpotBar)
    (h0 : s.slMode = SLMode.none → s.currentSlPrice = 0)
    (he : 0 ≤ s.entryPrice) :
    s.currentSlPrice ≤ (buyActiveBar env s bar).currentSlPrice := by
  have hpres := getOptionPrice_preserves env s s.activeScrip bar.ts
  unfold buyActiveBar
  split
  · split
    · rename_i s1 heq
      have h2 : (getOptionPrice env s s.activeScrip bar.ts).2 = s1 := by
        rw [heq]
      have hsl : s1.currentSlPrice = s.currentSlPrice := by
        rw [← h2]; exact hpres.2.2.2.2.2.2.2.2.1
      rw [show (closeTrade s1 "EXPIRY_FORCE" bar s1.entryPrice).currentSlPrice =
        s1.currentSlPrice from rfl, hsl]
    · rename_i p s1 heq
      have h2 : (getOptionPrice env s s.activeScrip bar.ts).2 = s1 := by
        rw [heq]
      have hsl : s1.currentSlPrice = s.currentSlPrice := by
        rw [← h2]; exact hpres.2.2.2.2.2.2.2.2.1
      rw [show (closeTrade s1 "EXPIRY_FORCE" bar p).currentSlPrice =
        s1.currentSlPrice from rfl, hsl]
  · split
    · rename_i s1 heq
      have h2 : (getOptionPrice env s s.activeScrip bar.ts).2 = s1 := by
        rw [heq]
      have hsl : s1.currentSlPrice = s.currentSlPrice := by
        rw [← h2]; exact hpres.2.2.2.2.2.2.2.2.1
      rw [hsl]
    · rename_i p s1 heq
      have h2 : (getOptionPrice env s s.activeScrip bar.ts).2 = s1 := by
        rw [heq]
      have hsl : s1.currentSlPrice = s.currentSlPrice := by
        rw [← h2]; exact hpres.2.2.2.2.2.2.2.2.1
      have hsm : s1.slMode = s.slMode := by
        rw [← h2]; exact hpres.2.2.2.2.2.2.2.1
      have hep : s1.entryPrice = s.entryPrice := by
        rw [← h2]; exact hpres.2.2.2.2.2.1
      have h0b : s1.slMode = SLMode.none → s1.currentSlPrice = 0 := by
        intro hm; rw [hsl]; exact h0 (hsm ▸ hm)
      have heb : 0 ≤ s1.entryPrice := hep ▸ he
      calc s.currentSlPrice = s1.currentSlPrice := hsl.symm
        _ ≤ (buyHold s1 bar p).currentSlPrice := buyHold_sl_le s1 bar p h0b heb

/-- C2: buying-variant trailing stop.  While a position is open the stop
price never decreases across bars (given the entry-time facts that the stop
is 0 in `NONE` mode and the entry price is non-negative, both established
by `entry_setup`).  When unrealized profit first reaches the trigger
(3000), the stop mode leaves `NONE`, the stop is based at the entry price
and possibly stepped the same bar.  While armed, each bar's stop either
stays unchanged or is assigned exactly
`entryPrice + (⌊(hwm − 3000)/500⌋ × 500) / quantity` (hwm the updated
high-water profit) and only on a strict increase. -/
theorem tslStop_monotone_ratchet :
    (∀ (env : BuyEnv) (s : BuyState) (bar : SpotBar),
        s.positionActive = true →
        (s.slMode = SLMode.none → s.currentSlPrice = 0) →
        0 ≤ s.entryPrice →
        s.currentSlPrice ≤ (buyNext env s bar).currentSlPrice) ∧
    (∀ (s : BuyState) (bar : SpotBar) (price pnl : ℚ),
        s.slMode = SLMode.none → pnl ≥ TSL_TRIGGER →
        (tslUpdate s bar price pnl).slMode ≠ SLMode.none ∧
        s.entryPrice ≤ (tslUpdate s bar price pnl).currentSlPrice ∧
        ((tslUpdate s bar price pnl).currentSlPrice = s.entryPrice ∨
          (tslUpdate s bar price pnl).currentSlPrice =
            s.entryPrice +
              ((⌊(pnl - TSL_TRIGGER) / TSL_STEP⌋ : ℤ) * TSL_INCREMENT : ℚ) /
                LOT_SIZE)) ∧
    (∀ (s : BuyState) (bar : SpotBar) (price pnl : ℚ),
        s.slMode = SLMode.cost ∨ s.slMode = SLMode.trailing →
        s.currentSlPrice ≤ (tslUpdate s bar price pnl).currentSlPrice ∧
        ((tslUpdate s bar price pnl).currentSlPrice = s.currentSlPrice ∨
          ((tslUpdate s bar price pnl).currentSlPrice =
              s.entryPrice +
                ((⌊(max s.maxPnlReached pnl - TSL_TRIGGER) / TSL_STEP⌋ : ℤ) *
                    TSL_INCREMENT : ℚ) / LOT_SIZE ∧
            s.currentSlPrice <
              (tslUpdate s bar price pnl).currentSlPrice))) := by
  refine ⟨?_, ?_, ?_⟩
  · intro env s bar hact h0 he
    rw [buyNext_active env s bar hact]
    have hd := newDayReset_fields s bar
    have h0b : (newDayReset s bar).slMode = SLMode.none →
        (newDayReset s bar).currentSlPrice = 0 := by
      intro hm; rw [hd.2.2.2.2.2.2.2.1]; exact h0 (hd.2.2.2.2.2.2.1 ▸ hm)
    have heb : 0 ≤ (newDayReset s bar).entryPrice := hd.2.2.2.1 ▸ he
    calc s.currentSlPrice = (newDayReset s bar).currentSlPrice :=
        (hd.2.2.2.2.2.2.2.1).symm
      _ ≤ _ := buyActiveBar_sl_le env (newDayReset s bar) bar h0b heb
  · intro s bar price pnl h0 hp
    simp only [tslUpdate, logTradeStep]
    rw [if_pos (show s.slMode = SLMode.none ∧ pnl ≥ TSL_TRIGGER from ⟨h0, hp⟩)]
    dsimp only
    rw [if_pos (show SLMode.cost = SLMode.cost ∨ SLMode.cost = SLMode.trailing
      from Or.inl rfl)]
    rw [if_neg (lt_irrefl pnl)]
    by_cases h2 : pnl - TSL_TRIGGER ≥ TSL_STEP
    · rw [if_pos h2]
      by_cases h3 : s.entryPrice +
          ((⌊(pnl - TSL_TRIGGER) / TSL_STEP⌋ : ℤ) * TSL_INCREMENT : ℚ) /
            LOT_SIZE > s.entryPrice
      · rw [if_pos h3]
        exact ⟨by simp, le_of_lt h3, Or.inr rfl⟩
      · rw [if_neg h3]
        exact ⟨by simp, le_refl _, Or.inl rfl⟩
    · rw [if_neg h2]
      exact ⟨by simp, le_refl _, Or.inl rfl⟩
  · intro s bar price pnl h
    have hno : ¬(s.slMode = SLMode.none ∧ pnl ≥ TSL_TRIGGER) := by
      rcases h with h | h <;> rw [h] <;> simp
    simp only [tslUpdate, logTradeStep]
    rw [if_neg hno, if_pos h]
    by_cases h1 : pnl > s.maxPnlReached
    · rw [if_pos h1]
      have hmax : max s.maxPnlReached pnl = pnl := max_eq_right (le_of_lt h1)
      rw [hmax]
      dsimp only
      by_cases h2 : pnl - TSL_TRIGGER ≥ TSL_STEP
      · rw [if_pos h2]
        by_cases h3 : s.entryPrice +
            ((⌊(pnl - TSL_TRIGGER) / TSL_STEP⌋ : ℤ) * TSL_INCREMENT : ℚ) /
              LOT_SIZE > s.currentSlPrice
        · rw [if_pos h3]
          exact ⟨le_of_lt h3, Or.inr ⟨rfl, h3⟩⟩
        · rw [if_neg h3]
          exact ⟨le_refl _, Or.inl rfl⟩
      · rw [if_neg h2]
        exact ⟨le_refl _, Or.inl rfl⟩
    · rw [if_neg h1]
      have hmax : max s.maxPnlReached pnl = s.maxPnlReached :=
        max_eq_left (le_of_not_lt h1)
      rw [hmax]
      by_cases h2 : s.maxPnlReached - TSL_TRIGGER ≥ TSL_STEP
      · rw [if_pos h2]
        by_cases h3 : s.entryPrice +
            ((⌊(s.maxPnlReached - TSL_TRIGGER) / TSL_STEP⌋ : ℤ) *
                TSL_INCREMENT : ℚ) / LOT_SIZE > s.currentSlPrice
        · rw [if_pos h3]
          exact ⟨le_of_lt h3, Or.inr ⟨rfl, h3⟩⟩
        · rw [if_neg h3]
          exact ⟨le_refl _, Or.inl rfl⟩
      · rw [if_neg h2]
        exact ⟨le_refl _, Or.inl rfl⟩

/-- Witness for C2 at the spec's example: entry 100, stop 0 in `NONE` mode;
the held bar keeps the stop non-decreasing, and a profit of 3500 arms the
stop at the entry price plus one 500-step over quantity 120. -/
theorem tslStop_monotone_ratchet_witness :
    c1BuyState.currentSlPrice ≤
      (buyNext (fun _ => Option.none) c1BuyState c1Bar).currentSlPrice ∧
    ((tslUpdate c1BuyState c1Bar 130 3500).slMode ≠ SLMode.none ∧
      c1BuyState.entryPrice ≤
        (tslUpdate c1BuyState c1Bar 130 3500).currentSlPrice ∧
      ((tslUpdate c1BuyState c1Bar 130 3500).currentSlPrice =
          c1BuyState.entryPrice ∨
        (tslUpdate c1BuyState c1Bar 130 3500).currentSlPrice =
          c1BuyState.entryPrice +
            ((⌊((3500 : ℚ) - TSL_TRIGGER) / TSL_STEP⌋ : ℤ) *
                TSL_INCREMENT : ℚ) / LOT_SIZE)) :=
  ⟨tslStop_monotone_ratchet.1 (fun _ => Option.none) c1BuyState c1Bar rfl
      (fun _ => rfl) (by decide),
   tslStop_monotone_ratchet.2.1 c1BuyState c1Bar 130 3500 rfl (by decide)⟩

theorem tslUpdate_ledger_extends (s : BuyState) (bar : SpotBar)
    (price pnl : ℚ) :
    s.currentTradeLedger <+: (tslUpdate s bar price pnl).currentTradeLedger := by
  simp only [tslUpdate, logTradeStep]
  split_ifs <;>
    first
      | exact List.prefix_rfl
      | exact List.prefix_append _ _
      | exact (List.prefix_append _ _).trans (List.prefix_append _ _)

theorem closeTrade_ledger_extends (s : BuyState) (reason : String)
    (bar : SpotBar) (price : ℚ) :
    s.currentTradeLedger <+: (closeTrade s reason bar price).currentTradeLedger :=
  List.prefix_append _ _

/-- The held-bar body appends the `HOLD` row first: everything it produces
extends the prior ledger extended by the `HOLD` record. -/
theorem buyHold_ledger_extends (s1 : BuyState) (bar : SpotBar) (p : ℚ) :
    (s1.currentTradeLedger ++
        [{ date := bar.date, timeMin := bar.timeMin, event := "HOLD",
           ticker := s1.activeScrip, price := round2 p,
           pnl := round2 ((p - s1.entryPrice) * LOT_SIZE),
           slPrice := if s1.currentSlPrice > 0 then round2 s1.currentSlPrice
                      else 0,
           slMode := s1.slMode, info := "Monitoring" }]) <+:
      (buyHold s1 bar p).currentTradeLedger := by
  have h1 := tslUpdate_ledger_extends (logTradeStep s1 bar "HOLD" p
    ((p - s1.entryPrice) * LOT_SIZE) s1.currentSlPrice "Monitoring") bar p
    ((p - s1.entryPrice) * LOT_SIZE)
  simp only [buyHold]
  set s3 := tslUpdate (logTradeStep s1 bar "HOLD" p
    ((p - s1.entryPrice) * LOT_SIZE) s1.currentSlPrice "Monitoring") bar p
    ((p - s1.entryPrice) * LOT_SIZE) with hs3
  by_cases hc1 : s3.slMode ≠ SLMode.none ∧ p ≤ s3.currentSlPrice
  · rw [if_pos hc1]
    exact h1.trans (closeTrade_ledger_extends s3 "TSL_HIT" bar s3.currentSlPrice)
  · rw [if_neg hc1]
    by_cases hc2 : s3.posType = some PosType.ce ∧ bar.ema5 < bar.ema20Low
    · rw [if_pos hc2]
      exact h1.trans (closeTrade_ledger_extends s3 "EMA_REVERSAL" bar p)
    · rw [if_neg hc2]
      by_cases hc3 : s3.posType = some PosType.pe ∧ bar.ema5 > bar.ema20High
      · rw [if_pos hc3]
        exact h1.trans (closeTrade_ledger_extends s3 "EMA_REVERSAL" bar p)
      · rw [if_neg hc3]
        exact h1

theorem getOptionPrice_snd_activeScrip_self (env : BuyEnv) (s : BuyState)
    (ts : Nat) :
    (getOptionPrice env s s.activeScrip ts).2.activeScrip = s.activeScrip := by
  rcases getOptionPrice_snd env s s.activeScrip ts with h | ⟨df, h⟩ <;> rw [h]

theorem buyHold_summary_le (s1 : BuyState) (bar : SpotBar) (p : ℚ) :
    (buyHold s1 bar p).summaryLog.length ≤ s1.summaryLog.length + 1 := by
  have ht := (tslUpdate_preserves (logTradeStep s1 bar "HOLD" p
    ((p - s1.entryPrice) * LOT_SIZE) s1.currentSlPrice "Monitoring") bar p
    ((p - s1.entryPrice) * LOT_SIZE)).2.2.2.2.2.2.2.2.2
  simp only [buyHold]
  set s3 := tslUpdate (logTradeStep s1 bar "HOLD" p
    ((p - s1.entryPrice) * LOT_SIZE) s1.currentSlPrice "Monitoring") bar p
    ((p - s1.entryPrice) * LOT_SIZE) with hs3
  have ht2 : s3.summaryLog = s1.summaryLog := ht
  have hclose : ∀ (r : String) (pr : ℚ),
      (closeTrade s3 r bar pr).summaryLog.length ≤ s1.summaryLog.length + 1 := by
    intro r pr
    rw [(closeTrade_fields s3 r bar pr).2.2.2.2.2.2, ht2]
    simp
  by_cases hc1 : s3.slMode ≠ SLMode.none ∧ p ≤ s3.currentSlPrice
  · rw [if_pos hc1]; exact hclose _ _
  · rw [if_neg hc1]
    by_cases hc2 : s3.posType = some PosType.ce ∧ bar.ema5 < bar.ema20Low
    · rw [if_pos hc2]; exact hclose _ _
    · rw [if_neg hc2]
      by_cases hc3 : s3.posType = some PosType.pe ∧ bar.ema5 > bar.ema20High
      · rw [if_pos hc3]; exact hclose _ _
      · rw [if_neg hc3]
        rw [ht2]
        exact Nat.le_succ _

theorem buyActiveBar_summary_le (env : BuyEnv) (s : BuyState) (bar : SpotBar) :
    (buyActiveBar env s bar).summaryLog.length ≤ s.summaryLog.length + 1 := by
  have hpres := (getOptionPrice_preserves env s s.activeScrip
    bar.ts).2.2.2.2.2.2.2.2.2.2.1
  unfold buyActiveBar
  split
  · split
    · rename_i s1 heq
      have h2 : (getOptionPrice env s s.activeScrip bar.ts).2 = s1 := by
        rw [heq]
      have hs : s1.summaryLog = s.summaryLog := by rw [← h2]; exact hpres
      simp [closeTrade, logTradeStep, hs]
    · rename_i q s1 heq
      have h2 : (getOptionPrice env s s.activeScrip bar.ts).2 = s1 := by
        rw [heq]
      have hs : s1.summaryLog = s.summaryLog := by rw [← h2]; exact hpres
      simp [closeTrade, logTradeStep, hs]
  · split
    · rename_i s1 heq
      have h2 : (getOptionPrice env s s.activeScrip bar.ts).2 = s1 := by
        rw [heq]
      have hs : s1.summaryLog = s.summaryLog := by rw [← h2]; exact hpres
      simp [hs]
    · rename_i q s1 heq
      have h2 : (getOptionPrice env s s.activeScrip bar.ts).2 = s1 := by
        rw [heq]
      have hs : s1.summaryLog = s.summaryLog := by rw [← h2]; exact hpres
      calc (buyHold s1 bar q).summaryLog.length ≤ s1.summaryLog.length + 1 :=
          buyHold_summary_le s1 bar q
        _ = s.summaryLog.length + 1 := by rw [hs]

theorem closeTrade_ledger (s : BuyState) (reason : String) (bar : SpotBar)
    (price : ℚ) :
    (closeTrade s reason bar price).currentTradeLedger =
      s.currentTradeLedger ++
        [{ date := bar.date, timeMin := bar.timeMin, event := "EXIT",
           ticker := s.activeScrip, price := round2 price,
           pnl := round2 ((price - s.entryPrice) * LOT_SIZE),
           slPrice := if s.currentSlPrice > 0 then round2 s.currentSlPrice
                      else 0,
           slMode := s.slMode, info := reason }] := rfl

/-- C5 (amended): buying-variant exit evaluation.  (1) The forced expiry
exit is evaluated first and fires before price resolution and before any
ledger row for the bar — in particular with no HOLD record (this is where
the original claim fails).  (2) On a non-expiry held bar whose price
resolves, the bar is processed by the hold body, which appends the HOLD
record before anything else.  (3) On the post-TSL state the exit rules run
in strict order — stop hit (closing at the stop price, not the market
price), then CE reversal, then PE reversal — first true wins, otherwise no
exit.  (4) At most one exit (summary row) is produced per bar. -/
theorem exitPriority_amended :
    (∀ (env : BuyEnv) (s : BuyState) (bar : SpotBar),
        s.positionActive = true → bar.date = bar.expiry → 915 ≤ bar.timeMin →
        ∃ r : BuyStepRecord,
          (buyNext env s bar).currentTradeLedger =
            s.currentTradeLedger ++ [r] ∧
          r.event = "EXIT" ∧ r.info = "EXPIRY_FORCE") ∧
    (∀ (env : BuyEnv) (s : BuyState) (bar : SpotBar) (p : ℚ) (s1 : BuyState),
        s.positionActive = true →
        ¬(bar.date = bar.expiry ∧ 915 ≤ bar.timeMin) →
        getOptionPrice env (newDayReset s bar)
          (newDayReset s bar).activeScrip bar.ts = (some p, s1) →
        buyNext env s bar = buyHold s1 bar p ∧
        ∃ (hr : BuyStepRecord) (rest : List BuyStepRecord),
          (buyNext env s bar).currentTradeLedger =
            s.currentTradeLedger ++ (hr :: rest) ∧ hr.event = "HOLD") ∧
    (∀ (s1 : BuyState) (bar : SpotBar) (p : ℚ) (s3 : BuyState),
        s3 = tslUpdate (logTradeStep s1 bar "HOLD" p
            ((p - s1.entryPrice) * LOT_SIZE) s1.currentSlPrice "Monitoring")
          bar p ((p - s1.entryPrice) * LOT_SIZE) →
        (s3.slMode ≠ SLMode.none ∧ p ≤ s3.currentSlPrice →
            buyHold s1 bar p = closeTrade s3 "TSL_HIT" bar s3.currentSlPrice) ∧
        (¬(s3.slMode ≠ SLMode.none ∧ p ≤ s3.currentSlPrice) →
            s3.posType = some PosType.ce ∧ bar.ema5 < bar.ema20Low →
            buyHold s1 bar p = closeTrade s3 "EMA_REVERSAL" bar p) ∧
        (¬(s3.slMode ≠ SLMode.none ∧ p ≤ s3.currentSlPrice) →
            ¬(s3.posType = some PosType.ce ∧ bar.ema5 < bar.ema20Low) →
            s3.posType = some PosType.pe ∧ bar.ema5 > bar.ema20High →
            buyHold s1 bar p = closeTrade s3 "EMA_REVERSAL" bar p) ∧
        (¬(s3.slMode ≠ SLMode.none ∧ p ≤ s3.currentSlPrice) →
            ¬(s3.posType = some PosType.ce ∧ bar.ema5 < bar.ema20Low) →
            ¬(s3.posType = some PosType.pe ∧ bar.ema5 > bar.ema20High) →
            buyHold s1 bar p = s3)) ∧
    (∀ (env : BuyEnv) (s : BuyState) (bar : SpotBar),
        s.positionActive = true →
        (buyNext env s bar).summaryLog.length ≤ s.summaryLog.length + 1) := by
  refine ⟨?_, ?_, ?_, ?_⟩
  · intro env s bar hact hdate htime
    rw [buyNext_active env s bar hact]
    have hd := newDayReset_fields s bar
    have hpres := getOptionPrice_preserves env (newDayReset s bar)
      (newDayReset s bar).activeScrip bar.ts
    unfold buyActiveBar
    rw [if_pos ⟨hdate, htime⟩]
    rcases hget : getOptionPrice env (newDayReset s bar)
        (newDayReset s bar).activeScrip bar.ts with ⟨po, s1⟩
    have hs1 : (getOptionPrice env (newDayReset s bar)
        (newDayReset s bar).activeScrip bar.ts).2 = s1 := by rw [hget]
    have hled : s1.currentTradeLedger = s.currentTradeLedger := by
      rw [← hs1]
      exact (hpres.2.2.2.2.2.2.2.2.2.2.2).trans hd.2.2.2.2.2.2.2.2.2.2
    cases po with
    | none => exact ⟨_, by rw [closeTrade_ledger, hled], rfl, rfl⟩
    | some q => exact ⟨_, by rw [closeTrade_ledger, hled], rfl, rfl⟩
  · intro env s bar p s1 hact hexp hget
    have hd := newDayReset_fields s bar
    have hpres := getOptionPrice_preserves env (newDayReset s bar)
      (newDayReset s bar).activeScrip bar.ts
    have hs1 : (getOptionPrice env (newDayReset s bar)
        (newDayReset s bar).activeScrip bar.ts).2 = s1 := by rw [hget]
    have hled : s1.currentTradeLedger = s.currentTradeLedger := by
      rw [← hs1]
      exact (hpres.2.2.2.2.2.2.2.2.2.2.2).trans hd.2.2.2.2.2.2.2.2.2.2
    have heq : buyNext env s bar = buyHold s1 bar p := by
      rw [buyNext_active env s bar hact]
      unfold buyActiveBar
      rw [if_neg hexp, hget]
    refine ⟨heq, ?_⟩
    obtain ⟨t, ht⟩ := buyHold_ledger_extends s1 bar p
    refine ⟨{ date := bar.date, timeMin := bar.timeMin, event := "HOLD",
              ticker := s1.activeScrip, price := round2 p,
              pnl := round2 ((p - s1.entryPrice) * LOT_SIZE),
              slPrice := if s1.currentSlPrice > 0 then
                           round2 s1.currentSlPrice
                         else 0,
              slMode := s1.slMode, info := "Monitoring" }, t, ?_, rfl⟩
    rw [heq, ← ht, hled]
    simp
  · intro s1 bar p s3 hs3
    subst hs3
    refine ⟨?_, ?_, ?_, ?_⟩
    · intro h1
      simp only [buyHold]
      rw [if_pos h1]
    · intro h1 h2
      simp only [buyHold]
      rw [if_neg h1, if_pos h2]
    · intro h1 h2 h3
      simp only [buyHold]
      rw [if_neg h1, if_neg h2, if_pos h3]
    · intro h1 h2 h3
      simp only [buyHold]
      rw [if_neg h1, if_neg h2, if_neg h3]
  · intro env s bar hact
    rw [buyNext_active env s bar hact]
    calc (buyActiveBar env (newDayReset s bar) bar).summaryLog.length
        ≤ (newDayReset s bar).summaryLog.length + 1 :=
          buyActiveBar_summary_le env (newDayReset s bar) bar
      _ = s.summaryLog.length + 1 := by
          rw [(newDayReset_fields s bar).2.2.2.2.2.2.2.2.2.1]

/-- Counterexample to C5 as stated: on the expiry force-exit bar an exit
fires without any HOLD record having been appended for the bar — the
trade's ledger for this bar is the single `EXIT`/`EXPIRY_FORCE` row, so
"every exit rule is evaluated only after the bar's HOLD step record has
been appended" is false for rule (1). -/
theorem exitPriority_holdFirst_counterexample :
    (buyNext (fun _ => Option.none) c1BuyState c4Bar).summaryLog.map
        (fun r => r.exitReason) = ["EXPIRY_FORCE"] ∧
    (buyNext (fun _ => Option.none) c1BuyState c4Bar).currentTradeLedger.map
        (fun r => r.event) = ["EXIT"] := by
  constructor <;> decide

/-- Witness for the amended C5: a held non-expiry bar resolving at price 2
is processed by the hold body, and — no exit condition holding on the
post-TSL state — produces no exit. -/
theorem exitPriority_amended_witness :
    buyNext (fun _ => Option.none) c3BuyState c1Bar =
      buyHold c3BuyState c1Bar 2 ∧
    buyHold c3BuyState c1Bar 2 =
      tslUpdate (logTradeStep c3BuyState c1Bar "HOLD" 2
          ((2 - c3BuyState.entryPrice) * LOT_SIZE) c3BuyState.currentSlPrice
          "Monitoring") c1Bar 2 ((2 - c3BuyState.entryPrice) * LOT_SIZE) :=
  ⟨(exitPriority_amended.2.1 (fun _ => Option.none) c3BuyState c1Bar 2
      c3BuyState rfl (by decide) (by decide)).1,
   (exitPriority_amended.2.2.1 c3BuyState c1Bar 2 _ rfl).2.2.2
      (by norm_num [tslUpdate, logTradeStep, c3BuyState, c1BuyState, c1Bar,
        LOT_SIZE, TSL_TRIGGER, TSL_STEP, TSL_INCREMENT])
      (by norm_num [tslUpdate, logTradeStep, c3BuyState, c1BuyState, c1Bar,
        LOT_SIZE, TSL_TRIGGER, TSL_STEP, TSL_INCREMENT])
      (by norm_num [tslUpdate, logTradeStep, c3BuyState, c1BuyState, c1Bar,
        LOT_SIZE, TSL_TRIGGER, TSL_STEP, TSL_INCREMENT])⟩

theorem getOptionIndicators_cacheHit_snd (env : SellEnv) (s : SellState)
    (df : List (Nat × IndRow)) (ts : Nat)
    (hact : s.positionActive = true) (h1 : s.activeOptionDf = some df) :
    (getOptionIndicators env s s.activeScrip ts).2 = s := by
  cases hasof : asof df ts with
  | none => simp [getOptionIndicators, hact, h1, hasof]
  | some tr =>
      simp [getOptionIndicators, hact, h1, hasof]
      split <;> rfl

/-- C7 (amended): only the buying variant performs the day-rollover reset.
On a bar whose date differs from the stored date it zeroes the daily trade
counter and drops the cached series while leaving the whole position state
untouched, and it is the identity when the date is unchanged.  The selling
variant has no daily counter and no date tracking at all: a held bar whose
cached row is stale is a complete no-op — the cached series survives the
date change (it is cleared on trade open/close instead). -/
theorem dayRollover_reset_buyingOnly :
    (∀ (s : BuyState) (bar : SpotBar),
        s.currentDate ≠ some bar.date →
        (newDayReset s bar).tradesToday = 0 ∧
        (newDayReset s bar).activeOptionDf = Option.none ∧
        (newDayReset s bar).currentDate = some bar.date ∧
        (newDayReset s bar).positionActive = s.positionActive ∧
        (newDayReset s bar).posType = s.posType ∧
        (newDayReset s bar).entryPrice = s.entryPrice ∧
        (newDayReset s bar).entryTime = s.entryTime ∧
        (newDayReset s bar).activeScrip = s.activeScrip ∧
        (newDayReset s bar).slMode = s.slMode ∧
        (newDayReset s bar).currentSlPrice = s.currentSlPrice ∧
        (newDayReset s bar).maxPnlReached = s.maxPnlReached) ∧
    (∀ (s : BuyState) (bar : SpotBar),
        s.currentDate = some bar.date → newDayReset s bar = s) ∧
    (∀ (env : SellEnv) (s : SellState) (bar : SpotBar)
        (df : List (Nat × IndRow)),
        s.positionActive = true → s.activeOptionDf = some df →
        (getOptionIndicators env s s.activeScrip bar.ts).1 = Option.none →
        sellNext env s bar = s) := by
  refine ⟨?_, ?_, ?_⟩
  · intro s bar h
    unfold newDayReset
    rw [if_pos h]
    exact ⟨rfl, rfl, rfl, rfl, rfl, rfl, rfl, rfl, rfl, rfl, rfl⟩
  · intro s bar h
    unfold newDayReset
    rw [if_neg (not_not_intro h)]
  · intro env s bar df hact h1 hnone
    rw [sellNext_active env s bar hact]
    unfold sellHoldBar
    rcases hg : getOptionIndicators env s s.activeScrip bar.ts with ⟨po, s1⟩
    have hs1 : s1 = s := by
      have h2 := getOptionIndicators_cacheHit_snd env s df bar.ts hact h1
      rw [hg] at h2
      exact h2
    have hpo : po = Option.none := by
      rw [hg] at hnone
      exact hnone
    subst hpo
    subst hs1
    rfl

def c7SellState : SellState :=
  { c1SellState with activeOptionDf := some [(33600, c6Row)] }

/-- The day after the position was opened: the cached sample (09:20 of day
20000) is a full day stale at this bar's query time. -/
def c7Bar : SpotBar := { c1Bar with date := 20001, ts := 120000 }

/-- Counterexample to C7 as stated for the selling variant: on a bar dated
the day after the held position's entry (a date change), the selling
machine retains its cached contract series — nothing drops it (and the
variant has no daily trade counter to reset at all). -/
theorem dayRollover_selling_counterexample :
    (sellNext (fun _ => Option.none) c7SellState c7Bar).activeOptionDf =
      some [(33600, c6Row)] ∧
    c7SellState.entryTime = some (20000, 850) ∧ c7Bar.date = 20001 := by
  refine ⟨?_, rfl, rfl⟩
  decide

/-- Witness for the amended C7: a date-change bar resets the buying
counters and cache but not the position; the selling machine is unchanged
on the stale-cache bar. -/
theorem dayRollover_reset_buyingOnly_witness :
    ((newDayReset c1BuyState c7Bar).tradesToday = 0 ∧
      (newDayReset c1BuyState c7Bar).activeOptionDf = Option.none ∧
      (newDayReset c1BuyState c7Bar).currentDate = some c7Bar.date ∧
      (newDayReset c1BuyState c7Bar).positionActive =
        c1BuyState.positionActive) ∧
    sellNext (fun _ => Option.none) c7SellState c7Bar = c7SellState :=
  ⟨(fun h => ⟨h.1, h.2.1, h.2.2.1, h.2.2.2.1⟩)
      (dayRollover_reset_buyingOnly.1 c1BuyState c7Bar (by decide)),
   dayRollover_reset_buyingOnly.2.2 (fun _ => Option.none) c7SellState c7Bar
      [(33600, c6Row)] rfl rfl (by decide)⟩

end Backtest
